import Mathlib

/-!
Verification of the This Bitter Ground simulation core (sim crate) against its
natural-language specification.  The Rust source is shallowly embedded: f32
values are modelled as exact rationals, the f32 square root is modelled by the
computable monotone under-approximation ratSqrt below (exact on perfect
squares, which is all the concrete inputs used here exercise), Vec and HashMap
become lists and association lists, and every system of the tick becomes a
pure function on the world state.
-/

set_option maxHeartbeats 1000000
set_option maxRecDepth 100000

namespace TBG

/-- Precision denominator for the rational square-root model. -/
def sqrtPrec : ℕ := 1000

/-- Fuel-driven version of the Newton iteration inside Nat.sqrt; the fuel
makes it structurally recursive so that kernel reduction can evaluate it. -/
def natSqrtIter (n : ℕ) : ℕ → ℕ → ℕ
  | 0, guess => guess
  | fuel + 1, guess =>
    let next := (guess + n / guess) / 2
    if next < guess then natSqrtIter n fuel next else guess

/-- Kernel-reducible integer square root, equal to Nat.sqrt. -/
def natSqrt (n : ℕ) : ℕ :=
  if n ≤ 1 then n else natSqrtIter n n (n / 2)

theorem natSqrtIter_eq (n : ℕ) :
    ∀ fuel guess, guess ≤ fuel → natSqrtIter n fuel guess = Nat.sqrt.iter n guess := by
  intro fuel
  induction fuel with
  | zero =>
    intro guess hg
    have hg0 : guess = 0 := Nat.le_zero.mp hg
    subst hg0
    rw [Nat.sqrt.iter]
    simp [natSqrtIter]
  | succ m ih =>
    intro guess hg
    rw [Nat.sqrt.iter]
    simp only [natSqrtIter]
    split
    · rename_i hlt
      exact ih _ (by omega)
    · rfl

theorem natSqrt_eq (n : ℕ) : natSqrt n = Nat.sqrt n := by
  unfold natSqrt Nat.sqrt
  split
  · rfl
  · exact natSqrtIter_eq n n (n / 2) (Nat.div_le_self n 2)

/-- Model of f32 sqrt over exact rationals: a deterministic, monotone
under-approximation that is exact whenever the true root times sqrtPrec is an
integer (in particular on squares of naturals). Negative inputs map to 0. -/
def ratSqrt (q : ℚ) : ℚ :=
  ((natSqrt (⌊q * ((sqrtPrec : ℚ) * (sqrtPrec : ℚ))⌋).toNat : ℕ) : ℚ) / (sqrtPrec : ℚ)

theorem ratSqrt_nonneg (q : ℚ) : 0 ≤ ratSqrt q := by
  unfold ratSqrt
  positivity

theorem ratSqrt_mono {q₁ q₂ : ℚ} (h : q₁ ≤ q₂) : ratSqrt q₁ ≤ ratSqrt q₂ := by
  unfold ratSqrt
  simp only [natSqrt_eq]
  have hfl : ⌊q₁ * ((sqrtPrec : ℚ) * (sqrtPrec : ℚ))⌋ ≤ ⌊q₂ * ((sqrtPrec : ℚ) * (sqrtPrec : ℚ))⌋ := by
    apply Int.floor_le_floor
    have hp : (0 : ℚ) ≤ (sqrtPrec : ℚ) * (sqrtPrec : ℚ) := by positivity
    exact mul_le_mul_of_nonneg_right h hp
  have hnat : (⌊q₁ * ((sqrtPrec : ℚ) * (sqrtPrec : ℚ))⌋).toNat ≤ (⌊q₂ * ((sqrtPrec : ℚ) * (sqrtPrec : ℚ))⌋).toNat :=
    Int.toNat_le_toNat hfl
  have hs := Nat.sqrt_le_sqrt hnat
  have : ((Nat.sqrt (⌊q₁ * ((sqrtPrec : ℚ) * (sqrtPrec : ℚ))⌋).toNat : ℕ) : ℚ)
      ≤ ((Nat.sqrt (⌊q₂ * ((sqrtPrec : ℚ) * (sqrtPrec : ℚ))⌋).toNat : ℕ) : ℚ) := by
    exact_mod_cast hs
  have hp : (0 : ℚ) ≤ (sqrtPrec : ℚ) := by positivity
  exact div_le_div_of_nonneg_right this hp

/-- The square of the model root never exceeds the input (for nonnegative input). -/
theorem ratSqrt_sq_le {q : ℚ} (hq : 0 ≤ q) : ratSqrt q * ratSqrt q ≤ q := by
  unfold ratSqrt
  simp only [natSqrt_eq]
  set N : ℚ := (sqrtPrec : ℚ) with hN
  have hNpos : (0 : ℚ) < N := by norm_num [hN, sqrtPrec]
  set m : ℕ := (⌊q * (N * N)⌋).toNat with hm
  have h1 : ((Nat.sqrt m : ℕ) : ℚ) * ((Nat.sqrt m : ℕ) : ℚ) ≤ (m : ℚ) := by
    have := Nat.sqrt_le m
    exact_mod_cast this
  have h2 : (m : ℚ) ≤ q * (N * N) := by
    rcases le_or_lt 0 (⌊q * (N * N)⌋) with hfl | hfl
    · have : ((⌊q * (N * N)⌋).toNat : ℚ) = ((⌊q * (N * N)⌋ : ℤ) : ℚ) := by
        exact_mod_cast Int.toNat_of_nonneg hfl
      rw [hm, this]
      exact Int.floor_le _
    · have hz : (⌊q * (N * N)⌋).toNat = 0 := Int.toNat_of_nonpos hfl.le
      rw [hm, hz]
      push_cast
      positivity
  calc ((Nat.sqrt m : ℕ) : ℚ) / N * (((Nat.sqrt m : ℕ) : ℚ) / N)
      = ((Nat.sqrt m : ℕ) : ℚ) * ((Nat.sqrt m : ℕ) : ℚ) / (N * N) := by ring
    _ ≤ q * (N * N) / (N * N) := by
        apply div_le_div_of_nonneg_right _ (by positivity)
        exact h1.trans h2
    _ = q := by field_simp

/-- If the input is at most a square, the model root is at most the base. -/
theorem ratSqrt_le_of_le_sq {q r : ℚ} (hr : 0 ≤ r) (h : q ≤ r * r) : ratSqrt q ≤ r := by
  rcases le_or_lt q 0 with hq | hq
  · have : ratSqrt q ≤ ratSqrt 0 := ratSqrt_mono hq
    have h0 : ratSqrt 0 = 0 := by norm_num [ratSqrt, natSqrt]
    calc ratSqrt q ≤ ratSqrt 0 := this
      _ = 0 := h0
      _ ≤ r := hr
  · have hsq := ratSqrt_sq_le hq.le
    nlinarith [ratSqrt_nonneg q, hsq, h]

/-- The model root is exact on squares of naturals. -/
theorem ratSqrt_natCast_sq (n : ℕ) : ratSqrt ((n : ℚ) * (n : ℚ)) = (n : ℚ) := by
  unfold ratSqrt
  simp only [natSqrt_eq]
  have h1 : ((n : ℚ) * (n : ℚ)) * ((sqrtPrec : ℚ) * (sqrtPrec : ℚ))
      = (((n * sqrtPrec) * (n * sqrtPrec) : ℕ) : ℚ) := by push_cast; ring
  rw [h1, Int.floor_natCast]
  have h2 : ((n * sqrtPrec) * (n * sqrtPrec) : ℕ) = (n * sqrtPrec) * (n * sqrtPrec) := rfl
  rw [Int.toNat_natCast, Nat.sqrt_eq (n * sqrtPrec)]
  have hp : ((sqrtPrec : ℚ)) ≠ 0 := by norm_num [sqrtPrec]
  push_cast
  field_simp

theorem ratSqrt_one_le {q : ℚ} (h : 1 ≤ q) : 1 ≤ ratSqrt q := by
  have := ratSqrt_mono h
  have h1 : ratSqrt ((1 : ℕ) * (1 : ℕ) : ℚ) = ((1 : ℕ) : ℚ) := ratSqrt_natCast_sq 1
  simp at h1
  calc (1 : ℚ) = ratSqrt 1 := h1.symm
    _ ≤ ratSqrt q := this

/-- Ascending run of n integers starting at lo. -/
def intRangeAux : ℕ → ℤ → List ℤ
  | 0, _ => []
  | n + 1, lo => lo :: intRangeAux n (lo + 1)

/-- List of integers from lo to hi inclusive (empty when lo > hi), in
ascending order; models Rust loops of the form for d in lo..=hi. -/
def intRange (lo hi : ℤ) : List ℤ :=
  intRangeAux (hi + 1 - lo).toNat lo

theorem mem_intRangeAux {n : ℕ} {lo z : ℤ} :
    z ∈ intRangeAux n lo ↔ lo ≤ z ∧ z < lo + n := by
  induction n generalizing lo with
  | zero => simp [intRangeAux]
  | succ m ih =>
    simp only [intRangeAux, List.mem_cons, ih]
    omega

theorem mem_intRange {lo hi z : ℤ} : z ∈ intRange lo hi ↔ lo ≤ z ∧ z ≤ hi := by
  unfold intRange
  rw [mem_intRangeAux]
  omega

/-- Entry in a spatial cell (src sim spatial.rs SpatialEntry); the bevy Entity
is modelled as a natural number. -/
structure SpatialEntry where
  entity : ℕ
  x : ℚ
  y : ℚ
  faction : ℕ
deriving DecidableEq, Repr

/-- Grid-based spatial partitioning structure (src sim spatial.rs
SpatialGrid).  The HashMap from cell coordinates to entry vectors is
modelled as an association list; the order of the outer list models the
(implementation-defined) bucket order of the HashMap, which queries never
observe because they only perform keyed lookups.  The reverse entity map is
only used by remove and total_count and is omitted. -/
structure SpatialGrid where
  cellSize : ℚ
  cells : List ((ℤ × ℤ) × List SpatialEntry)
deriving DecidableEq, Repr

namespace SpatialGrid

/-- Convert world coordinates to cell coordinates (world_to_cell). -/
def worldToCell (g : SpatialGrid) (x y : ℚ) : ℤ × ℤ :=
  (⌊x / g.cellSize⌋, ⌊y / g.cellSize⌋)

/-- Keyed lookup in the association list of cells; returns the entry vector
of the first bucket with the given key, or the empty list. -/
def cellEntries : List ((ℤ × ℤ) × List SpatialEntry) → ℤ × ℤ → List SpatialEntry
  | [], _ => []
  | (k, es) :: rest, c => if k = c then es else cellEntries rest c

/-- Insert an entity at a position (insert); called only on a grid that was
cleared this tick, so the remove-from-old-cell branch never fires and the
entry is pushed onto its cell bucket.  A missing bucket is created; the
canonical model appends it at the end of the bucket list. -/
def insertEntry : List ((ℤ × ℤ) × List SpatialEntry) → (ℤ × ℤ) → SpatialEntry → List ((ℤ × ℤ) × List SpatialEntry)
  | [], c, e => [(c, [e])]
  | (k, es) :: rest, c, e =>
      if k = c then (k, es ++ [e]) :: rest else (k, es) :: insertEntry rest c e

def insert (g : SpatialGrid) (e : SpatialEntry) : SpatialGrid :=
  { g with cells := insertEntry g.cells (g.worldToCell e.x e.y) e }

/-- Build a grid of the given cell size from a list of entries in insertion
order, starting from a cleared grid. -/
def build (cs : ℚ) (entries : List SpatialEntry) : SpatialGrid :=
  entries.foldl (fun g e => g.insert e) ⟨cs, []⟩

/-- All entries stored in the grid, in bucket order. -/
def gridEntries (g : SpatialGrid) : List SpatialEntry :=
  (g.cells.map Prod.snd).flatten

/-- Squared distance from an entry to a query point, as computed by the
source: (entry.x - x)^2 + (entry.y - y)^2. -/
def entryDistSq (e : SpatialEntry) (x y : ℚ) : ℚ :=
  (e.x - x) * (e.x - x) + (e.y - y) * (e.y - y)

/-- Well-formedness of a grid as maintained by the per-tick rebuild: bucket
keys are distinct, and each entry sits in the bucket of its own cell. -/
def WF (g : SpatialGrid) : Prop :=
  (g.cells.map Prod.fst).Nodup ∧
  ∀ kv ∈ g.cells, ∀ e ∈ kv.2, g.worldToCell e.x e.y = kv.1

instance (g : SpatialGrid) : Decidable g.WF := by
  unfold WF
  infer_instance

/-- Query all entries within a radius of a point (query_radius): scan the
square of cells of half-width ceil(radius over cell_size) + 1 around the
center cell in ascending (dx, dy) order, keep entries with squared distance
at most radius^2, and stable-sort the result by squared distance (the source
sort_by comparator compares only distances, with ties left in scan order). -/
def queryRadius (g : SpatialGrid) (x y radius : ℚ) : List SpatialEntry :=
  List.insertionSort (fun a b => entryDistSq a x y ≤ entryDistSq b x y)
    (((intRange (-(⌈radius / g.cellSize⌉ + 1)) (⌈radius / g.cellSize⌉ + 1)).map (fun dx =>
      ((intRange (-(⌈radius / g.cellSize⌉ + 1)) (⌈radius / g.cellSize⌉ + 1)).map (fun dy =>
        (cellEntries g.cells ((g.worldToCell x y).1 + dx, (g.worldToCell x y).2 + dy)).filter
          (fun e => decide (entryDistSq e x y ≤ radius * radius)))).flatten)).flatten)

/-- Query all entries within a radius with faction different from the given
one (query_enemies). -/
def queryEnemies (g : SpatialGrid) (x y radius : ℚ) (myFaction : ℕ) : List SpatialEntry :=
  (g.queryRadius x y radius).filter (fun e => decide (e.faction ≠ myFaction))

/-- Query all entries within a radius with the given faction
(query_friendlies). -/
def queryFriendlies (g : SpatialGrid) (x y radius : ℚ) (myFaction : ℕ) : List SpatialEntry :=
  (g.queryRadius x y radius).filter (fun e => decide (e.faction = myFaction))

/-- First result of queryEnemies (nearest_enemy). -/
def nearestEnemy (g : SpatialGrid) (x y maxRadius : ℚ) (myFaction : ℕ) : Option SpatialEntry :=
  (g.queryEnemies x y maxRadius myFaction).head?

theorem mem_of_mem_cellEntries {cells : List ((ℤ × ℤ) × List SpatialEntry)} {c : ℤ × ℤ}
    {e : SpatialEntry} (h : e ∈ cellEntries cells c) :
    ∃ es, (c, es) ∈ cells ∧ e ∈ es := by
  induction cells with
  | nil => simp [cellEntries] at h
  | cons kv rest ih =>
    obtain ⟨k, es0⟩ := kv
    by_cases hk : k = c
    · subst hk
      simp only [cellEntries, if_pos rfl] at h
      exact ⟨es0, List.mem_cons_self _ _, h⟩
    · simp only [cellEntries, if_neg hk] at h
      obtain ⟨es, hmem, he⟩ := ih h
      exact ⟨es, List.mem_cons_of_mem _ hmem, he⟩

theorem cellEntries_eq_of_mem {cells : List ((ℤ × ℤ) × List SpatialEntry)} {c : ℤ × ℤ}
    {es : List SpatialEntry} (hnd : (cells.map Prod.fst).Nodup) (h : (c, es) ∈ cells) :
    cellEntries cells c = es := by
  induction cells with
  | nil => simp at h
  | cons kv rest ih =>
    obtain ⟨k, es0⟩ := kv
    simp only [List.map_cons, List.nodup_cons] at hnd
    rcases List.mem_cons.mp h with heq | hmem
    · have hc : c = k := congrArg Prod.fst heq
      have hes : es = es0 := congrArg Prod.snd heq
      subst hc
      simp only [cellEntries, if_pos rfl]
      exact hes.symm
    · by_cases hk : k = c
      · exfalso
        apply hnd.1
        subst hk
        exact List.mem_map.mpr ⟨(k, es), hmem, rfl⟩
      · simp only [cellEntries, if_neg hk]
        exact ih hnd.2 hmem

/-- Floor-cell coverage bound: a point within r of x (in one coordinate) lies
in a cell whose index differs from the center cell index by at most
ceil(r over cs). -/
theorem floor_cell_bound {x ex cs r : ℚ} (hcs : 0 < cs) (hub : ex ≤ x + r) (hlb : x - r ≤ ex) :
    ⌊x / cs⌋ - ⌈r / cs⌉ ≤ ⌊ex / cs⌋ ∧ ⌊ex / cs⌋ ≤ ⌊x / cs⌋ + ⌈r / cs⌉ := by
  have hdiv_ub : ex / cs ≤ x / cs + r / cs := by
    rw [div_add_div_same]
    exact div_le_div_of_nonneg_right hub hcs.le
  have hdiv_lb : x / cs - r / cs ≤ ex / cs := by
    rw [div_sub_div_same]
    exact div_le_div_of_nonneg_right hlb hcs.le
  constructor
  · have h1 : x / cs - (⌈r / cs⌉ : ℚ) ≤ ex / cs := by
      have := Int.le_ceil (r / cs)
      linarith
    have h2 : ⌊x / cs - (⌈r / cs⌉ : ℚ)⌋ ≤ ⌊ex / cs⌋ := Int.floor_le_floor h1
    rwa [Int.floor_sub_int] at h2
  · have h1 : ex / cs ≤ x / cs + (⌈r / cs⌉ : ℚ) := by
      have := Int.le_ceil (r / cs)
      linarith
    have h2 : ⌊ex / cs⌋ ≤ ⌊x / cs + (⌈r / cs⌉ : ℚ)⌋ := Int.floor_le_floor h1
    rwa [Int.floor_add_int] at h2

theorem mem_queryRadius {g : SpatialGrid} (hg : g.WF) (hcs : 0 < g.cellSize)
    {x y r : ℚ} (hr : 0 ≤ r) {e : SpatialEntry} :
    e ∈ g.queryRadius x y r ↔ e ∈ g.gridEntries ∧ entryDistSq e x y ≤ r * r := by
  unfold queryRadius
  rw [(List.perm_insertionSort _ _).mem_iff]
  constructor
  · intro h
    obtain ⟨l1, hl1mem, hl1⟩ := List.mem_flatten.mp h
    obtain ⟨dx, _, heq1⟩ := List.mem_map.mp hl1mem
    subst heq1
    obtain ⟨l2, hl2mem, hl2⟩ := List.mem_flatten.mp hl1
    obtain ⟨dy, _, heq2⟩ := List.mem_map.mp hl2mem
    subst heq2
    obtain ⟨hcell, hdist⟩ := List.mem_filter.mp hl2
    obtain ⟨es, hmem, he⟩ := mem_of_mem_cellEntries hcell
    refine ⟨?_, by simpa using hdist⟩
    unfold gridEntries
    exact List.mem_flatten.mpr ⟨es, List.mem_map.mpr ⟨_, hmem, rfl⟩, he⟩
  · rintro ⟨hmem, hdist⟩
    unfold gridEntries at hmem
    obtain ⟨es, hes, he⟩ := List.mem_flatten.mp hmem
    obtain ⟨kv, hkv, heskv⟩ := List.mem_map.mp hes
    subst heskv
    have hkey : g.worldToCell e.x e.y = kv.1 := hg.2 kv hkv e he
    have hxb : (e.x - x) * (e.x - x) ≤ r * r := by
      have h0 : (0 : ℚ) ≤ (e.y - y) * (e.y - y) := mul_self_nonneg _
      unfold entryDistSq at hdist
      linarith
    have hyb : (e.y - y) * (e.y - y) ≤ r * r := by
      have h0 : (0 : ℚ) ≤ (e.x - x) * (e.x - x) := mul_self_nonneg _
      unfold entryDistSq at hdist
      linarith
    have hxabs : e.x ≤ x + r ∧ x - r ≤ e.x := by constructor <;> nlinarith
    have hyabs : e.y ≤ y + r ∧ y - r ≤ e.y := by constructor <;> nlinarith
    have hxc := floor_cell_bound hcs hxabs.1 hxabs.2
    have hyc := floor_cell_bound hcs hyabs.1 hyabs.2
    have hfx : kv.1.1 = ⌊e.x / g.cellSize⌋ := by
      rw [← hkey]; rfl
    have hfy : kv.1.2 = ⌊e.y / g.cellSize⌋ := by
      rw [← hkey]; rfl
    have hc01 : (g.worldToCell x y).1 = ⌊x / g.cellSize⌋ := rfl
    have hc02 : (g.worldToCell x y).2 = ⌊y / g.cellSize⌋ := rfl
    apply List.mem_flatten.mpr
    refine ⟨_, List.mem_map.mpr ⟨kv.1.1 - (g.worldToCell x y).1, mem_intRange.mpr ?_, rfl⟩, ?_⟩
    · rw [hfx, hc01]
      omega
    · apply List.mem_flatten.mpr
      refine ⟨_, List.mem_map.mpr ⟨kv.1.2 - (g.worldToCell x y).2, mem_intRange.mpr ?_, rfl⟩, ?_⟩
      · rw [hfy, hc02]
        omega
      · have hcc : ((g.worldToCell x y).1 + (kv.1.1 - (g.worldToCell x y).1),
            (g.worldToCell x y).2 + (kv.1.2 - (g.worldToCell x y).2)) = kv.1 := by
          have : (g.worldToCell x y).1 + (kv.1.1 - (g.worldToCell x y).1) = kv.1.1 := by ring
          have h2 : (g.worldToCell x y).2 + (kv.1.2 - (g.worldToCell x y).2) = kv.1.2 := by ring
          rw [this, h2]
        rw [hcc, cellEntries_eq_of_mem hg.1 (by simpa using hkv)]
        exact List.mem_filter.mpr ⟨he, by simpa using hdist⟩

theorem queryRadius_sorted (g : SpatialGrid) (x y r : ℚ) :
    (g.queryRadius x y r).Sorted (fun a b => entryDistSq a x y ≤ entryDistSq b x y) := by
  unfold queryRadius
  letI : IsTotal SpatialEntry (fun a b => entryDistSq a x y ≤ entryDistSq b x y) :=
    ⟨fun a b => le_total _ _⟩
  letI : IsTrans SpatialEntry (fun a b => entryDistSq a x y ≤ entryDistSq b x y) :=
    ⟨fun _ _ _ hab hbc => le_trans hab hbc⟩
  exact List.sorted_insertionSort _ _

end SpatialGrid

/-- Terrain type at a grid cell (src sim terrain.rs TerrainType). -/
inductive TerrainType where
  | open_
  | rough
  | mud
  | crater
  | trench
  | water
  | road
  | forest
  | rubble
deriving DecidableEq, Repr

namespace TerrainType

/-- Movement speed multiplier for this terrain type. -/
def movementMultiplier : TerrainType → ℚ
  | .open_ => 1
  | .rough => 7/10
  | .mud => 4/10
  | .crater => 6/10
  | .trench => 9/10
  | .water => 2/10
  | .road => 13/10
  | .forest => 6/10
  | .rubble => 5/10

/-- Cover value provided by this terrain. -/
def coverValue : TerrainType → ℚ
  | .open_ => 0
  | .rough => 2/10
  | .mud => 0
  | .crater => 5/10
  | .trench => 8/10
  | .water => 0
  | .road => 0
  | .forest => 4/10
  | .rubble => 3/10

end TerrainType

/-- A single cell in the terrain grid. -/
structure TerrainCell where
  height : ℚ
  ttype : TerrainType
  damage : ℚ
deriving DecidableEq, Repr

instance : Inhabited TerrainCell := ⟨⟨0, .open_, 0⟩⟩

/-- A crater in the terrain. -/
structure Crater where
  x : ℚ
  y : ℚ
  radius : ℚ
  depth : ℚ
  age : ℚ
deriving DecidableEq, Repr

/-- Grid-based terrain heightmap (src sim terrain.rs TerrainGrid); the cell
vector is stored row-major. -/
structure TerrainGrid where
  width : ℕ
  height : ℕ
  cellSize : ℚ
  originX : ℚ
  originY : ℚ
  cells : List TerrainCell
  craters : List Crater
deriving DecidableEq, Repr

namespace TerrainGrid

/-- Create a new terrain grid (TerrainGrid::new). -/
def new (w h : ℕ) (cs : ℚ) : TerrainGrid :=
  { width := w
    height := h
    cellSize := cs
    originX := -((w : ℚ) * cs) / 2
    originY := -((h : ℚ) * cs) / 2
    cells := List.replicate (w * h) default
    craters := [] }

/-- Mutate the cell at grid coordinates, when in bounds (get_cell_mut
followed by a field write; out-of-range coordinates are a no-op). -/
def updateCell (g : TerrainGrid) (x y : ℕ) (f : TerrainCell → TerrainCell) : TerrainGrid :=
  if x < g.width ∧ y < g.height then
    { g with cells := g.cells.set (y * g.width + x) (f (g.cells.getD (y * g.width + x) default)) }
  else g

/-- Set the terrain type of a cell when in bounds. -/
def setCellType (g : TerrainGrid) (x y : ℕ) (t : TerrainType) : TerrainGrid :=
  g.updateCell x y (fun c => { c with ttype := t })

/-- Circular patch helper of add_forest_patch: iterates dy then dx over the
bounding square and retypes cells inside the radius. -/
def addForestPatch (g : TerrainGrid) (cx cy radius : ℕ) : TerrainGrid :=
  (List.range (radius * 2 + 1)).foldl (fun acc dy =>
    (List.range (radius * 2 + 1)).foldl (fun acc2 dx =>
      let x := cx - radius + dx
      let y := cy - radius + dy
      let distSq := ((x : ℤ) - (cx : ℤ)) ^ 2 + ((y : ℤ) - (cy : ℤ)) ^ 2
      if distSq ≤ ((radius : ℤ)) ^ 2 then acc2.setCellType x y .forest else acc2) acc) g

/-- Circular patch helper of add_rough_patch: like the forest patch but only
retypes open cells. -/
def addRoughPatch (g : TerrainGrid) (cx cy radius : ℕ) : TerrainGrid :=
  (List.range (radius * 2 + 1)).foldl (fun acc dy =>
    (List.range (radius * 2 + 1)).foldl (fun acc2 dx =>
      let x := cx - radius + dx
      let y := cy - radius + dy
      let distSq := ((x : ℤ) - (cx : ℤ)) ^ 2 + ((y : ℤ) - (cy : ℤ)) ^ 2
      if distSq ≤ ((radius : ℤ)) ^ 2 then
        acc2.updateCell x y (fun c => if c.ttype = .open_ then { c with ttype := .rough } else c)
      else acc2) acc) g

/-- Create a terrain grid with initial features (new_with_features): a two-row
central road, four forest patches and two rough patches. -/
def newWithFeatures (w h : ℕ) (cs : ℚ) : TerrainGrid :=
  let g0 := new w h cs
  let midY := h / 2
  let g1 := (List.range w).foldl (fun acc x =>
    let acc2 := acc.setCellType x midY .road
    if 0 < midY then acc2.setCellType x (midY - 1) .road else acc2) g0
  let g2 := ((g1.addForestPatch (w / 4) (h / 4) 5).addForestPatch (3 * w / 4) (h / 4) 4)
  let g3 := ((g2.addForestPatch (w / 4) (3 * h / 4) 4).addForestPatch (3 * w / 4) (3 * h / 4) 5)
  (g3.addRoughPatch (w / 3) (h / 3) 3).addRoughPatch (2 * w / 3) (2 * h / 3) 3

/-- Convert world coordinates to (clamped) grid coordinates (world_to_grid).
The source clamps into 0..=width-1; a zero-sized grid would panic in Rust and
is never constructed. -/
def worldToGrid (g : TerrainGrid) (wx wy : ℚ) : ℕ × ℕ :=
  ((max 0 (min ((g.width : ℤ) - 1) ⌊(wx - g.originX) / g.cellSize⌋)).toNat,
   (max 0 (min ((g.height : ℤ) - 1) ⌊(wy - g.originY) / g.cellSize⌋)).toNat)

/-- Get terrain info at a world position (get_terrain_at). -/
def getTerrainAt (g : TerrainGrid) (wx wy : ℚ) : TerrainCell :=
  let c := g.worldToGrid wx wy
  if c.1 < g.width ∧ c.2 < g.height then g.cells.getD (c.2 * g.width + c.1) default
  else default

/-- Height at a world position (get_height_at; nearest neighbor). -/
def getHeightAt (g : TerrainGrid) (wx wy : ℚ) : ℚ :=
  (g.getTerrainAt wx wy).height

/-- Movement multiplier at a world position (get_movement_multiplier). -/
def getMovementMultiplier (g : TerrainGrid) (wx wy : ℚ) : ℚ :=
  (g.getTerrainAt wx wy).ttype.movementMultiplier

/-- Cover at a world position (get_cover_at). -/
def getCoverAt (g : TerrainGrid) (wx wy : ℚ) : ℚ :=
  (g.getTerrainAt wx wy).ttype.coverValue

/-- World x coordinate of the center of grid column gx. -/
def cellCenterX (g : TerrainGrid) (gx : ℤ) : ℚ :=
  g.originX + ((gx : ℚ) + 1/2) * g.cellSize

/-- World y coordinate of the center of grid row gy. -/
def cellCenterY (g : TerrainGrid) (gy : ℤ) : ℚ :=
  g.originY + ((gy : ℚ) + 1/2) * g.cellSize

/-- Distance from the crater impact point to the center of cell p. -/
def craterDist (g : TerrainGrid) (wx wy : ℚ) (p : ℤ × ℤ) : ℚ :=
  ratSqrt ((g.cellCenterX p.1 - wx) * (g.cellCenterX p.1 - wx)
    + (g.cellCenterY p.2 - wy) * (g.cellCenterY p.2 - wy))

/-- Terrain type promotion applied by apply_crater after accumulating
damage (first match wins). -/
def promoteCell (c : TerrainCell) : TerrainCell :=
  if 2 < c.damage then { c with ttype := .crater }
  else if 1 < c.damage ∧ c.ttype = .forest then { c with ttype := .rubble }
  else if 1/2 < c.damage ∧ c.ttype = .open_ then { c with ttype := .rough }
  else c

/-- Per-cell deformation of apply_crater at distance dist from the impact. -/
def craterCellUpdate (radius depth dist : ℚ) (c : TerrainCell) : TerrainCell :=
  promoteCell
    { c with
      height := c.height + (-depth * (1 - dist / radius) * (1 - dist / radius))
      damage := c.damage + depth * (1 - dist / radius) }

/-- One iteration of the apply_crater double loop at absolute cell p.  The
source computes (cx as i32 + dx) as usize; a negative coordinate wraps to a
huge index and fails the get_cell_mut bounds check, which the integer bounds
guard models. -/
def craterStep (wx wy radius depth : ℚ) (g : TerrainGrid) (p : ℤ × ℤ) : TerrainGrid :=
  if craterDist g wx wy p ≤ radius then
    if 0 ≤ p.1 ∧ p.1 < (g.width : ℤ) ∧ 0 ≤ p.2 ∧ p.2 < (g.height : ℤ) then
      { g with cells := (g.cells.set (p.2.toNat * g.width + p.1.toNat)
          (craterCellUpdate radius depth (craterDist g wx wy p)
            (g.cells.getD (p.2.toNat * g.width + p.1.toNat) default))) }
    else g
  else g

/-- The absolute cell coordinates scanned by the apply_crater double loop
(dy outer, dx inner), centered on the impact cell. -/
def craterPairs (g : TerrainGrid) (wx wy radius : ℚ) : List (ℤ × ℤ) :=
  ((intRange (-⌈radius / g.cellSize⌉) ⌈radius / g.cellSize⌉).map (fun dy =>
    (intRange (-⌈radius / g.cellSize⌉) ⌈radius / g.cellSize⌉).map (fun dx =>
      (((g.worldToGrid wx wy).1 : ℤ) + dx, ((g.worldToGrid wx wy).2 : ℤ) + dy)))).flatten

/-- Apply a crater to the terrain (apply_crater): deform every scanned cell
within the radius, then append a crater record with age 0. -/
def applyCrater (g : TerrainGrid) (wx wy radius depth : ℚ) : TerrainGrid :=
  let g1 := (g.craterPairs wx wy radius).foldl (craterStep wx wy radius depth) g
  { g1 with craters := g1.craters ++ [⟨wx, wy, radius, depth, 0⟩] }

/-- Update crater ages (TerrainGrid::update). -/
def update (g : TerrainGrid) (dt : ℚ) : TerrainGrid :=
  { g with craters := g.craters.map (fun c => { c with age := c.age + dt }) }

/-- Whether the crater deforms the scanned cell p: the cell center is within
the radius and the cell is in bounds. -/
def craterHits (g : TerrainGrid) (wx wy radius : ℚ) (p : ℤ × ℤ) : Prop :=
  craterDist g wx wy p ≤ radius ∧
    0 ≤ p.1 ∧ p.1 < (g.width : ℤ) ∧ 0 ≤ p.2 ∧ p.2 < (g.height : ℤ)

instance (g : TerrainGrid) (wx wy radius : ℚ) (p : ℤ × ℤ) :
    Decidable (craterHits g wx wy radius p) := by
  unfold craterHits
  infer_instance

/-- Row-major index of cell p. -/
def cellIdx (g : TerrainGrid) (p : ℤ × ℤ) : ℕ :=
  p.2.toNat * g.width + p.1.toNat

/-- Two grids with equal geometry fields. -/
def geomEq (a b : TerrainGrid) : Prop :=
  a.width = b.width ∧ a.height = b.height ∧ a.cellSize = b.cellSize ∧
    a.originX = b.originX ∧ a.originY = b.originY

theorem geomEq_refl (a : TerrainGrid) : geomEq a a := ⟨rfl, rfl, rfl, rfl, rfl⟩

theorem craterDist_congr {a b : TerrainGrid} (h : geomEq a b) (wx wy : ℚ) (p : ℤ × ℤ) :
    craterDist a wx wy p = craterDist b wx wy p := by
  unfold craterDist cellCenterX cellCenterY
  rw [h.2.2.1, h.2.2.2.1, h.2.2.2.2]

theorem craterHits_congr {a b : TerrainGrid} (h : geomEq a b) (wx wy radius : ℚ) (p : ℤ × ℤ) :
    craterHits a wx wy radius p ↔ craterHits b wx wy radius p := by
  unfold craterHits
  rw [craterDist_congr h, h.1, h.2.1]

theorem cellIdx_congr {a b : TerrainGrid} (h : geomEq a b) (p : ℤ × ℤ) :
    cellIdx a p = cellIdx b p := by
  unfold cellIdx
  rw [h.1]

/-- In-bounds cells have distinct indices unless they coincide. -/
theorem cellIdx_inj {g : TerrainGrid} {p q : ℤ × ℤ}
    (hp : 0 ≤ p.1 ∧ p.1 < (g.width : ℤ) ∧ 0 ≤ p.2 ∧ p.2 < (g.height : ℤ))
    (hq : 0 ≤ q.1 ∧ q.1 < (g.width : ℤ) ∧ 0 ≤ q.2 ∧ q.2 < (g.height : ℤ))
    (hidx : cellIdx g p = cellIdx g q) : p = q := by
  unfold cellIdx at hidx
  obtain ⟨p1, p2⟩ := p
  obtain ⟨q1, q2⟩ := q
  simp only at hp hq hidx
  have hw : 0 < g.width := by omega
  have hp1 : p1.toNat < g.width := by omega
  have hq1 : q1.toNat < g.width := by omega
  have hmod : p1.toNat = q1.toNat := by
    have e1 : (p2.toNat * g.width + p1.toNat) % g.width = p1.toNat := by
      rw [Nat.add_comm, Nat.add_mul_mod_self_right]
      exact Nat.mod_eq_of_lt hp1
    have e2 : (q2.toNat * g.width + q1.toNat) % g.width = q1.toNat := by
      rw [Nat.add_comm, Nat.add_mul_mod_self_right]
      exact Nat.mod_eq_of_lt hq1
    rw [← e1, ← e2, hidx]
  have hdiv : p2.toNat = q2.toNat := by
    have e1 : (p2.toNat * g.width + p1.toNat) / g.width = p2.toNat := by
      rw [Nat.add_comm, Nat.add_mul_div_right _ _ hw, Nat.div_eq_of_lt hp1, Nat.zero_add]
    have e2 : (q2.toNat * g.width + q1.toNat) / g.width = q2.toNat := by
      rw [Nat.add_comm, Nat.add_mul_div_right _ _ hw, Nat.div_eq_of_lt hq1, Nat.zero_add]
    rw [← e1, ← e2, hidx]
  have h1 : p1 = q1 := by omega
  have h2 : p2 = q2 := by omega
  rw [h1, h2]

theorem craterStep_eq_of_not_hits {g : TerrainGrid} {wx wy radius : ℚ} {p : ℤ × ℤ}
    (h : ¬ craterHits g wx wy radius p) (depth : ℚ) :
    craterStep wx wy radius depth g p = g := by
  unfold craterStep
  unfold craterHits at h
  split
  · split
    · exact absurd ⟨by assumption, by assumption⟩ h
    · rfl
  · rfl

theorem craterStep_geom {g : TerrainGrid} (wx wy radius depth : ℚ) (p : ℤ × ℤ) :
    geomEq (craterStep wx wy radius depth g p) g ∧
      (craterStep wx wy radius depth g p).craters = g.craters ∧
      (craterStep wx wy radius depth g p).cells.length = g.cells.length := by
  unfold craterStep
  split
  · split
    · exact ⟨⟨rfl, rfl, rfl, rfl, rfl⟩, rfl, by simp⟩
    · exact ⟨geomEq_refl g, rfl, rfl⟩
  · exact ⟨geomEq_refl g, rfl, rfl⟩

theorem craterStep_cells_of_hits {g : TerrainGrid} {wx wy radius : ℚ} {p : ℤ × ℤ}
    (h : craterHits g wx wy radius p) (depth : ℚ) :
    (craterStep wx wy radius depth g p).cells =
      g.cells.set (cellIdx g p)
        (craterCellUpdate radius depth (craterDist g wx wy p)
          (g.cells.getD (cellIdx g p) default)) := by
  unfold craterStep
  obtain ⟨h1, h2⟩ := h
  rw [if_pos h1, if_pos h2]
  rfl

theorem getD_set_self {l : List TerrainCell} {n : ℕ} (h : n < l.length) (a d : TerrainCell) :
    (l.set n a).getD n d = a := by
  rw [List.getD_eq_getElem?_getD, List.getElem?_set_self h]
  rfl

theorem getD_set_ne {l : List TerrainCell} {n m : ℕ} (h : n ≠ m) (a d : TerrainCell) :
    (l.set n a).getD m d = l.getD m d := by
  rw [List.getD_eq_getElem?_getD, List.getElem?_set_ne h, ← List.getD_eq_getElem?_getD]

theorem geomEq_trans {a b c : TerrainGrid} (h1 : geomEq a b) (h2 : geomEq b c) : geomEq a c := by
  unfold geomEq at h1 h2 ⊢
  exact ⟨h1.1.trans h2.1, h1.2.1.trans h2.2.1, h1.2.2.1.trans h2.2.2.1,
    h1.2.2.2.1.trans h2.2.2.2.1, h1.2.2.2.2.trans h2.2.2.2.2⟩

/-- Cells not indexed by any hitting scan pair are untouched by the crater
fold. -/
theorem foldl_craterStep_cells_of_not_hit (wx wy radius depth : ℚ) (g0 : TerrainGrid) (i : ℕ) :
    ∀ (L : List (ℤ × ℤ)) (g : TerrainGrid), geomEq g g0 →
      (∀ p ∈ L, craterHits g0 wx wy radius p → cellIdx g0 p ≠ i) →
      (L.foldl (craterStep wx wy radius depth) g).cells.getD i default =
        g.cells.getD i default := by
  intro L
  induction L with
  | nil => intro g _ _; rfl
  | cons q rest ih =>
    intro g hgeom hno
    simp only [List.foldl_cons]
    have hgeom' : geomEq (craterStep wx wy radius depth g q) g0 :=
      geomEq_trans (craterStep_geom wx wy radius depth q).1 hgeom
    have hno' : ∀ p ∈ rest, craterHits g0 wx wy radius p → cellIdx g0 p ≠ i :=
      fun p hp h => hno p (List.mem_cons_of_mem _ hp) h
    rw [ih (craterStep wx wy radius depth g q) hgeom' hno']
    by_cases hh : craterHits g wx wy radius q
    · have hh0 : craterHits g0 wx wy radius q := (craterHits_congr hgeom wx wy radius q).mp hh
      have hne : cellIdx g q ≠ i := by
        rw [cellIdx_congr hgeom]
        exact hno q (List.mem_cons_self _ _) hh0
      rw [craterStep_cells_of_hits hh depth]
      exact getD_set_ne hne _ _
    · rw [craterStep_eq_of_not_hits hh depth]

/-- The cell indexed by a hitting scan pair receives exactly one geometric
deformation from the crater fold. -/
theorem foldl_craterStep_cells_of_hit (wx wy radius depth : ℚ) (g0 : TerrainGrid) :
    ∀ (L : List (ℤ × ℤ)) (g : TerrainGrid), geomEq g g0 → L.Nodup →
      g.cells.length = g0.cells.length →
      ∀ p ∈ L, craterHits g0 wx wy radius p → cellIdx g0 p < g0.cells.length →
      (L.foldl (craterStep wx wy radius depth) g).cells.getD (cellIdx g0 p) default =
        craterCellUpdate radius depth (craterDist g0 wx wy p)
          (g.cells.getD (cellIdx g0 p) default) := by
  intro L
  induction L with
  | nil => intro g _ _ _ p hp; simp at hp
  | cons q rest ih =>
    intro g hgeom hnd hlen p hp hhit hlt
    simp only [List.foldl_cons]
    have hgeom' : geomEq (craterStep wx wy radius depth g q) g0 :=
      geomEq_trans (craterStep_geom wx wy radius depth q).1 hgeom
    have hlen' : (craterStep wx wy radius depth g q).cells.length = g0.cells.length :=
      (craterStep_geom wx wy radius depth q).2.2.trans hlen
    rcases List.mem_cons.mp hp with rfl | hprest
    · -- the head pair is the hitting pair
      have hhq : craterHits g wx wy radius p := (craterHits_congr hgeom wx wy radius p).mpr hhit
      have hidxq : cellIdx g p = cellIdx g0 p := cellIdx_congr hgeom p
      have hdistq : craterDist g wx wy p = craterDist g0 wx wy p := craterDist_congr hgeom wx wy p
      have hno' : ∀ q2 ∈ rest, craterHits g0 wx wy radius q2 → cellIdx g0 q2 ≠ cellIdx g0 p := by
        intro q2 hq2 hhit2 hidx2
        have : q2 = p := cellIdx_inj hhit2.2 hhit.2 hidx2
        subst this
        exact (List.nodup_cons.mp hnd).1 hq2
      rw [foldl_craterStep_cells_of_not_hit wx wy radius depth g0 (cellIdx g0 p) rest
        (craterStep wx wy radius depth g p) hgeom' hno']
      rw [craterStep_cells_of_hits hhq depth, hidxq, hdistq]
      exact getD_set_self (by omega) _ _
    · -- the hitting pair sits in the tail
      have hres := ih (craterStep wx wy radius depth g q) hgeom' (List.nodup_cons.mp hnd).2
        hlen' p hprest hhit hlt
      rw [hres]
      by_cases hh : craterHits g wx wy radius q
      · have hh0 : craterHits g0 wx wy radius q := (craterHits_congr hgeom wx wy radius q).mp hh
        have hne : cellIdx g q ≠ cellIdx g0 p := by
          rw [cellIdx_congr hgeom]
          intro hidx2
          have : q = p := cellIdx_inj hh0.2 hhit.2 hidx2
          subst this
          exact (List.nodup_cons.mp hnd).1 hprest
        rw [craterStep_cells_of_hits hh depth, getD_set_ne hne]
      · rw [craterStep_eq_of_not_hits hh depth]

theorem foldl_craterStep_geom (wx wy radius depth : ℚ) :
    ∀ (L : List (ℤ × ℤ)) (g : TerrainGrid),
      geomEq (L.foldl (craterStep wx wy radius depth) g) g ∧
        (L.foldl (craterStep wx wy radius depth) g).craters = g.craters ∧
        (L.foldl (craterStep wx wy radius depth) g).cells.length = g.cells.length := by
  intro L
  induction L with
  | nil => intro g; exact ⟨geomEq_refl g, rfl, rfl⟩
  | cons q rest ih =>
    intro g
    simp only [List.foldl_cons]
    have h1 := ih (craterStep wx wy radius depth g q)
    have h2 := @craterStep_geom g wx wy radius depth q
    exact ⟨geomEq_trans h1.1 h2.1, h1.2.1.trans h2.2.1, h1.2.2.trans h2.2.2⟩

theorem intRangeAux_nodup : ∀ (n : ℕ) (lo : ℤ), (intRangeAux n lo).Nodup := by
  intro n
  induction n with
  | zero => intro lo; simp [intRangeAux]
  | succ m ih =>
    intro lo
    simp only [intRangeAux, List.nodup_cons]
    refine ⟨?_, ih (lo + 1)⟩
    intro hmem
    have := mem_intRangeAux.mp hmem
    omega

theorem intRange_nodup (lo hi : ℤ) : (intRange lo hi).Nodup :=
  intRangeAux_nodup _ _

theorem craterPairs_nodup (g : TerrainGrid) (wx wy radius : ℚ) :
    (g.craterPairs wx wy radius).Nodup := by
  unfold craterPairs
  rw [List.nodup_flatten]
  constructor
  · intro l hl
    obtain ⟨dy, _, rfl⟩ := List.mem_map.mp hl
    apply List.Nodup.map _ (intRange_nodup _ _)
    intro a b hab
    have := congrArg Prod.fst hab
    simpa using this
  · rw [List.pairwise_map]
    have hnd := intRange_nodup (-⌈radius / g.cellSize⌉) ⌈radius / g.cellSize⌉
    refine List.Pairwise.imp ?_ hnd
    intro dy1 dy2 hne a ha1 ha2
    obtain ⟨dx1, _, rfl⟩ := List.mem_map.mp ha1
    obtain ⟨dx2, _, heq⟩ := List.mem_map.mp ha2
    have hsnd := congrArg Prod.snd heq
    simp only at hsnd
    exact hne (by omega)

theorem promoteCell_height (c : TerrainCell) : (promoteCell c).height = c.height := by
  unfold promoteCell
  repeat' split
  all_goals rfl

theorem promoteCell_damage (c : TerrainCell) : (promoteCell c).damage = c.damage := by
  unfold promoteCell
  repeat' split
  all_goals rfl

theorem craterCellUpdate_height (radius depth dist : ℚ) (c : TerrainCell) :
    (craterCellUpdate radius depth dist c).height
      = c.height + (-depth * (1 - dist / radius) * (1 - dist / radius)) := by
  unfold craterCellUpdate
  rw [promoteCell_height]

theorem craterCellUpdate_damage (radius depth dist : ℚ) (c : TerrainCell) :
    (craterCellUpdate radius depth dist c).damage
      = c.damage + depth * (1 - dist / radius) := by
  unfold craterCellUpdate
  rw [promoteCell_damage]

theorem applyCrater_cells (g : TerrainGrid) (wx wy radius depth : ℚ) :
    (g.applyCrater wx wy radius depth).cells
      = ((g.craterPairs wx wy radius).foldl (craterStep wx wy radius depth) g).cells := rfl

theorem applyCrater_craters (g : TerrainGrid) (wx wy radius depth : ℚ) :
    (g.applyCrater wx wy radius depth).craters
      = g.craters ++ [⟨wx, wy, radius, depth, 0⟩] := by
  show ((g.craterPairs wx wy radius).foldl (craterStep wx wy radius depth) g).craters
      ++ [⟨wx, wy, radius, depth, 0⟩] = g.craters ++ [⟨wx, wy, radius, depth, 0⟩]
  rw [(foldl_craterStep_geom wx wy radius depth (g.craterPairs wx wy radius) g).2.1]

theorem applyCrater_geom (g : TerrainGrid) (wx wy radius depth : ℚ) :
    geomEq (g.applyCrater wx wy radius depth) g ∧
      (g.applyCrater wx wy radius depth).cells.length = g.cells.length := by
  have h := foldl_craterStep_geom wx wy radius depth (g.craterPairs wx wy radius) g
  exact ⟨h.1, h.2.2⟩

theorem craterPairs_congr {a b : TerrainGrid} (h : geomEq a b) (wx wy radius : ℚ) :
    a.craterPairs wx wy radius = b.craterPairs wx wy radius := by
  unfold craterPairs worldToGrid
  rw [h.1, h.2.1, h.2.2.1, h.2.2.2.1, h.2.2.2.2]

/-- The index of an in-bounds scanned cell is inside the cell vector. -/
theorem cellIdx_lt_of_hits {g : TerrainGrid} {wx wy radius : ℚ} {p : ℤ × ℤ}
    (hhit : craterHits g wx wy radius p) (hlen : g.cells.length = g.width * g.height) :
    cellIdx g p < g.cells.length := by
  obtain ⟨-, h1, h2, h3, h4⟩ := hhit
  unfold cellIdx
  rw [hlen]
  have hx : p.1.toNat < g.width := by omega
  have hy : p.2.toNat < g.height := by omega
  calc p.2.toNat * g.width + p.1.toNat < p.2.toNat * g.width + g.width := by omega
    _ = (p.2.toNat + 1) * g.width := by ring
    _ ≤ g.height * g.width := Nat.mul_le_mul_right _ (by omega)
    _ = g.width * g.height := Nat.mul_comm _ _

theorem applyCrater_getD_hit (g : TerrainGrid) (wx wy radius depth : ℚ)
    (hlen : g.cells.length = g.width * g.height) {p : ℤ × ℤ}
    (hp : p ∈ g.craterPairs wx wy radius) (hhit : craterHits g wx wy radius p) :
    (g.applyCrater wx wy radius depth).cells.getD (cellIdx g p) default
      = craterCellUpdate radius depth (craterDist g wx wy p)
          (g.cells.getD (cellIdx g p) default) := by
  rw [applyCrater_cells]
  exact foldl_craterStep_cells_of_hit wx wy radius depth g (g.craterPairs wx wy radius) g
    (geomEq_refl g) (craterPairs_nodup g wx wy radius) rfl p hp hhit
    (cellIdx_lt_of_hits hhit hlen)

theorem applyCrater_getD_not_hit (g : TerrainGrid) (wx wy radius depth : ℚ) (i : ℕ)
    (hno : ∀ p ∈ g.craterPairs wx wy radius, craterHits g wx wy radius p → cellIdx g p ≠ i) :
    (g.applyCrater wx wy radius depth).cells.getD i default = g.cells.getD i default := by
  rw [applyCrater_cells]
  exact foldl_craterStep_cells_of_not_hit wx wy radius depth g i
    (g.craterPairs wx wy radius) g (geomEq_refl g) hno

/-- Crater deformation is monotone on every cell: the height never increases
and the damage never decreases. -/
theorem applyCrater_cell_monotone (g : TerrainGrid) (wx wy radius depth : ℚ)
    (hr : 0 < radius) (hd : 0 ≤ depth) (hlen : g.cells.length = g.width * g.height) (i : ℕ) :
    ((g.applyCrater wx wy radius depth).cells.getD i default).height
        ≤ (g.cells.getD i default).height ∧
      (g.cells.getD i default).damage
        ≤ ((g.applyCrater wx wy radius depth).cells.getD i default).damage := by
  by_cases hex : ∃ p ∈ g.craterPairs wx wy radius, craterHits g wx wy radius p ∧ cellIdx g p = i
  · obtain ⟨p, hp, hhit, rfl⟩ := hex
    rw [applyCrater_getD_hit g wx wy radius depth hlen hp hhit]
    have hdist := hhit.1
    have hf : 0 ≤ 1 - craterDist g wx wy p / radius := by
      have : craterDist g wx wy p / radius ≤ 1 := (div_le_one hr).mpr hdist
      linarith
    constructor
    · rw [craterCellUpdate_height]
      nlinarith [mul_nonneg hd (mul_nonneg hf hf)]
    · rw [craterCellUpdate_damage]
      nlinarith [mul_nonneg hd hf]
  · rw [applyCrater_getD_not_hit g wx wy radius depth i]
    · exact ⟨le_refl _, le_refl _⟩
    · intro p hp hhit hidx
      exact hex ⟨p, hp, hhit, hidx⟩

/-- Applying the same crater twice adds the same per-cell height and damage
deltas again: the effect stacks additively. -/
theorem applyCrater_stacks (g : TerrainGrid) (wx wy radius depth : ℚ)
    (hlen : g.cells.length = g.width * g.height) (i : ℕ) :
    (((g.applyCrater wx wy radius depth).applyCrater wx wy radius depth).cells.getD i default).damage
        - ((g.applyCrater wx wy radius depth).cells.getD i default).damage
      = ((g.applyCrater wx wy radius depth).cells.getD i default).damage
        - (g.cells.getD i default).damage ∧
    (((g.applyCrater wx wy radius depth).applyCrater wx wy radius depth).cells.getD i default).height
        - ((g.applyCrater wx wy radius depth).cells.getD i default).height
      = ((g.applyCrater wx wy radius depth).cells.getD i default).height
        - (g.cells.getD i default).height := by
  set g1 := g.applyCrater wx wy radius depth with hg1
  have hgeom : geomEq g1 g := (applyCrater_geom g wx wy radius depth).1
  have hlen1 : g1.cells.length = g1.width * g1.height := by
    rw [(applyCrater_geom g wx wy radius depth).2, hgeom.1, hgeom.2.1]
    exact hlen
  have hpairs : g1.craterPairs wx wy radius = g.craterPairs wx wy radius :=
    craterPairs_congr hgeom wx wy radius
  by_cases hex : ∃ p ∈ g.craterPairs wx wy radius, craterHits g wx wy radius p ∧ cellIdx g p = i
  · obtain ⟨p, hp, hhit, rfl⟩ := hex
    have hhit1 : craterHits g1 wx wy radius p := (craterHits_congr hgeom wx wy radius p).mpr hhit
    have hidx1 : cellIdx g1 p = cellIdx g p := cellIdx_congr hgeom p
    have hdist1 : craterDist g1 wx wy p = craterDist g wx wy p := craterDist_congr hgeom wx wy p
    have h2 : (g1.applyCrater wx wy radius depth).cells.getD (cellIdx g p) default
        = craterCellUpdate radius depth (craterDist g wx wy p)
            (g1.cells.getD (cellIdx g p) default) := by
      have := @applyCrater_getD_hit g1 wx wy radius depth hlen1
        p (by rw [hpairs]; exact hp) hhit1
      rw [hidx1, hdist1] at this
      exact this
    have h1 : g1.cells.getD (cellIdx g p) default
        = craterCellUpdate radius depth (craterDist g wx wy p)
            (g.cells.getD (cellIdx g p) default) :=
      applyCrater_getD_hit g wx wy radius depth hlen hp hhit
    rw [h2, h1]
    rw [craterCellUpdate_damage, craterCellUpdate_damage, craterCellUpdate_height,
      craterCellUpdate_height]
    constructor <;> ring
  · have hno : ∀ p ∈ g.craterPairs wx wy radius, craterHits g wx wy radius p → cellIdx g p ≠ i :=
      fun p hp hhit hidx => hex ⟨p, hp, hhit, hidx⟩
    have h1 : g1.cells.getD i default = g.cells.getD i default :=
      applyCrater_getD_not_hit g wx wy radius depth i hno
    have h2 : (g1.applyCrater wx wy radius depth).cells.getD i default
        = g1.cells.getD i default := by
      apply applyCrater_getD_not_hit g1 wx wy radius depth i
      intro p hp hhit hidx
      rw [hpairs] at hp
      rw [craterHits_congr hgeom] at hhit
      rw [cellIdx_congr hgeom] at hidx
      exact hno p hp hhit hidx
    rw [h2, h1]
    constructor <;> ring

end TerrainGrid

/-- Faction identifier (components.rs Faction). -/
inductive Faction where
  | blue
  | red
deriving DecidableEq, Repr

/-- Faction code used by the spatial grid (Blue=0, Red=1). -/
def Faction.code : Faction → ℕ
  | .blue => 0
  | .red => 1

/-- Current order of a squad (components.rs Order). -/
inductive Order where
  | hold
  | moveTo (x y : ℚ)
  | attackMove (x y : ℚ)
  | retreat
deriving DecidableEq, Repr

/-- Whether the order is MoveTo or AttackMove. -/
def Order.isMoveLike : Order → Bool
  | .moveTo _ _ => true
  | .attackMove _ _ => true
  | _ => false

/-- AI behavior state (components.rs BehaviorState). -/
inductive BehaviorState where
  | idle
  | advancing
  | engaging
  | takingCover
  | flanking
  | retreating
  | regrouping
deriving DecidableEq, Repr

/-- Simulation level of detail (components.rs SimLod). -/
inductive SimLod where
  | high
  | medium
  | low
deriving DecidableEq, Repr

/-- Tick interval for a LOD level. -/
def SimLod.tickInterval : SimLod → ℕ
  | .high => 1
  | .medium => 2
  | .low => 4

/-- Whether an entity with this LOD updates on the given tick. -/
def SimLod.shouldUpdate (l : SimLod) (tick : ℕ) : Bool :=
  tick % l.tickInterval == 0

/-- Activity flags (components.rs ActivityFlags). -/
structure ActivityFlags where
  isMoving : Bool
  isFiring : Bool
  recentlyDamaged : Bool
  isSuppressed : Bool
  lastDamageTick : ℕ
deriving DecidableEq, Repr

def defaultActivityFlags : ActivityFlags := ⟨false, false, false, false, 0⟩

/-- Mark a unit as damaged on the given tick (mark_damaged). -/
def ActivityFlags.markDamaged (f : ActivityFlags) (tick : ℕ) : ActivityFlags :=
  { f with lastDamageTick := tick, recentlyDamaged := true }

/-- Refresh the recently_damaged flag (update_damage_status); natural
subtraction models u64 saturating_sub. -/
def ActivityFlags.updateDamageStatus (f : ActivityFlags) (currentTick damageMemoryTicks : ℕ) :
    ActivityFlags :=
  { f with recentlyDamaged := decide (currentTick - f.lastDamageTick < damageMemoryTicks) }

/-- Exact value of f32::MAX, used by ThreatAwareness::clear as the initial
nearest-enemy distance. -/
def f32Max : ℚ := (2 ^ 24 - 1) * 2 ^ 104

/-- Threat awareness of an AI squad (components.rs ThreatAwareness). -/
structure ThreatAwareness where
  nearestEnemy : Option (ℚ × ℚ)
  nearestEnemyDist : ℚ
  enemiesInRange : ℕ
  fireDirection : Option (ℚ × ℚ)
  timeSinceFire : ℚ
  threatLevel : ℚ
deriving DecidableEq, Repr

/-- Derived Default of ThreatAwareness: all fields zero or none. -/
def defaultThreat : ThreatAwareness := ⟨none, 0, 0, none, 0, 0⟩

/-- Reset transient threat fields (ThreatAwareness::clear). -/
def ThreatAwareness.clear (t : ThreatAwareness) : ThreatAwareness :=
  { t with nearestEnemy := none, nearestEnemyDist := f32Max,
           enemiesInRange := 0, fireDirection := none }

/-- Flocking weights (components.rs FlockingWeights). -/
structure FlockingWeights where
  cohesion : ℚ
  separation : ℚ
  alignment : ℚ
  goalSeeking : ℚ
  threatAvoidance : ℚ
  neighborRadius : ℚ
  separationRadius : ℚ
deriving DecidableEq, Repr

def defaultFlockingWeights : FlockingWeights := ⟨3/10, 5/10, 2/10, 1, 8/10, 30, 8⟩

/-- Tactical preferences (components.rs TacticalPreferences). -/
structure TacticalPreferences where
  aggression : ℚ
  coverSeeking : ℚ
  flankingTendency : ℚ
  retreatThreshold : ℚ
  coordination : ℚ
deriving DecidableEq, Repr

def defaultTacticalPreferences : TacticalPreferences := ⟨5/10, 6/10, 4/10, 3/10, 7/10⟩

/-- Nearby friendly tracking (components.rs NearbyFriendlies).  The squad_ids
vector is cleared each tick and never filled by the source (the push is
commented out), so it is omitted from the model. -/
structure NearbyFriendlies where
  centerOfMass : Option (ℚ × ℚ)
  averageVelocity : ℚ × ℚ
deriving DecidableEq, Repr

def defaultNearbyFriendlies : NearbyFriendlies := ⟨none, (0, 0)⟩

/-- The optional AI overlay of a squad (AIBundle): behavior state, threat
awareness, flocking weights, tactical preferences and nearby friendlies. -/
structure AIData where
  behavior : BehaviorState
  threat : ThreatAwareness
  weights : FlockingWeights
  prefs : TacticalPreferences
  nearby : NearbyFriendlies
deriving DecidableEq, Repr

def defaultAIData : AIData :=
  ⟨.idle, defaultThreat, defaultFlockingWeights, defaultTacticalPreferences,
   defaultNearbyFriendlies⟩

/-- A squad entity with all its components; lod, sector and flags are present
on every spawned squad, the AI overlay is optional. -/
structure Squad where
  entity : ℕ
  squadId : ℕ
  faction : Faction
  px : ℚ
  py : ℚ
  vx : ℚ
  vy : ℚ
  healthCur : ℚ
  healthMax : ℚ
  size : ℕ
  speed : ℚ
  fireRange : ℚ
  accuracy : ℚ
  morale : ℚ
  suppression : ℚ
  order : Order
  lod : Option SimLod
  sector : ℤ × ℤ
  flags : ActivityFlags
  ai : Option AIData
deriving DecidableEq, Repr

/-- Health::damage clamps at zero. -/
def healthDamage (cur amount : ℚ) : ℚ := max (cur - amount) 0

/-- Health::fraction clamps the ratio into the unit interval and treats a
nonpositive max as zero. -/
def healthFraction (cur hmax : ℚ) : ℚ :=
  if hmax ≤ 0 then 0 else min (max (cur / hmax) 0) 1

/-- Morale::decrease clamps below at zero. -/
def moraleDecrease (v amount : ℚ) : ℚ := max (v - amount) 0

/-- Morale::recover clamps above at one. -/
def moraleRecover (v amount : ℚ) : ℚ := min (v + amount) 1

/-- State of a destructible (components.rs DestructibleState). -/
inductive DestructibleState where
  | intact
  | damaged
  | destroyed
deriving DecidableEq, Repr

/-- Type tag of a destructible (components.rs DestructibleType). -/
inductive DestructibleType where
  | tree
  | building
  | wall
  | vehicle
deriving DecidableEq, Repr

/-- A destructible entity (tree or building bundle).  The changed flag models
bevy change detection on DestructibleHealth as observed by
destruction_state_system. -/
structure Destructible where
  entity : ℕ
  destId : ℕ
  px : ℚ
  py : ℚ
  healthCur : ℚ
  healthMax : ℚ
  damageThreshold : ℚ
  state : DestructibleState
  coverIntact : ℚ
  coverDamaged : ℚ
  coverDestroyed : ℚ
  coverRadius : ℚ
  dtype : DestructibleType
  changed : Bool
deriving DecidableEq, Repr

/-- A terrain damage event entity (components.rs TerrainDamageEvent). -/
structure TerrainDamageEvent where
  entity : ℕ
  x : ℚ
  y : ℚ
  radius : ℚ
  depth : ℚ
deriving DecidableEq, Repr

/-- Simulation configuration (systems performance.rs SimConfig).  Note the
config has no cell_size field: the spatial grid cell size is hardcoded to 20
and the terrain cell size to 2 at construction. -/
structure SimConfig where
  fixedTimestep : ℚ
  sectorSize : ℚ
  lodHighDistance : ℚ
  lodMediumDistance : ℚ
  damageMemoryTicks : ℕ
  lodReferencePoint : ℚ × ℚ
deriving DecidableEq, Repr

def defaultConfig : SimConfig := ⟨1/30, 40, 100, 200, 60, (0, 0)⟩

/-- The full simulation world: ECS entities (squads, destructibles, damage
events), resources (spatial grid, tick counter, delta time, config) and the
SimWorld fields of api.rs (tick, time, terrain, new craters, dirty flag,
accumulator). -/
structure SimWorld where
  squads : List Squad
  destructibles : List Destructible
  events : List TerrainDamageEvent
  nextEntity : ℕ
  grid : SpatialGrid
  simTick : ℕ
  deltaTime : ℚ
  config : SimConfig
  tick : ℕ
  time : ℚ
  terrain : TerrainGrid
  newCraters : List Crater
  terrainDirty : Bool
  timeAccumulator : ℚ
deriving DecidableEq, Repr

/-- Spatial entries inserted by the per-tick rebuild: alive squads in
iteration order with their position and faction code. -/
def spatialEntriesOf (squads : List Squad) : List SpatialEntry :=
  (squads.filter (fun s => decide (0 < s.healthCur))).map
    (fun s => ⟨s.entity, s.px, s.py, s.faction.code⟩)

/-- spatial_grid_update_system: clear and rebuild the grid from alive
squads; the grid cell size is the 20 units fixed at world construction. -/
def spatialGridUpdateSystem (w : SimWorld) : SimWorld :=
  { w with grid := SpatialGrid.build 20 (spatialEntriesOf w.squads) }

/-- lod_assignment_system: assign LOD from squared distance to the reference
point. -/
def lodAssignmentSystem (w : SimWorld) : SimWorld :=
  { w with squads := w.squads.map (fun s =>
      match s.lod with
      | none => s
      | some _ =>
        let dx := s.px - w.config.lodReferencePoint.1
        let dy := s.py - w.config.lodReferencePoint.2
        let distSq := dx * dx + dy * dy
        let newLod : SimLod :=
          if distSq ≤ w.config.lodHighDistance * w.config.lodHighDistance then .high
          else if distSq ≤ w.config.lodMediumDistance * w.config.lodMediumDistance then .medium
          else .low
        { s with lod := some newLod }) }

/-- sector_assignment_system. -/
def sectorAssignmentSystem (w : SimWorld) : SimWorld :=
  { w with squads := w.squads.map (fun s =>
      { s with sector := (⌊s.px / w.config.sectorSize⌋, ⌊s.py / w.config.sectorSize⌋) }) }

/-- activity_flags_system. -/
def activityFlagsSystem (w : SimWorld) : SimWorld :=
  { w with squads := w.squads.map (fun s =>
      let f1 := { s.flags with
        isMoving := decide ((1 : ℚ)/10 < ratSqrt (s.vx * s.vx + s.vy * s.vy)),
        isSuppressed := decide ((1 : ℚ)/2 ≤ s.suppression) }
      { s with flags := f1.updateDamageStatus w.simTick w.config.damageMemoryTicks }) }

/-- The full threat scan for one AI squad (the body of
threat_awareness_system when the LOD schedules an update). -/
def threatScan (grid : SpatialGrid) (delta : ℚ) (s : Squad) (ai : AIData) : AIData :=
  let t0 := { ai.threat.clear with timeSinceFire := ai.threat.timeSinceFire + delta }
  let enemies := grid.queryEnemies s.px s.py (s.fireRange * 2) s.faction.code
  let acc := enemies.foldl (fun (acc : ℚ × ThreatAwareness × ℕ) e =>
    if e.entity = s.entity then acc
    else
      let dist := ratSqrt ((e.x - s.px) * (e.x - s.px) + (e.y - s.py) * (e.y - s.py))
      let acc1 : ℚ × ThreatAwareness × ℕ :=
        if dist < acc.1 then
          (dist, { acc.2.1 with nearestEnemy := some (e.x, e.y), nearestEnemyDist := dist },
           acc.2.2)
        else acc
      if dist ≤ s.fireRange * (3/2) then (acc1.1, acc1.2.1, acc1.2.2 + 1) else acc1)
    (f32Max, t0, 0)
  let closest := acc.1
  let eir := acc.2.2
  let level : ℚ :=
    if eir = 0 then 0
    else
      let rangeFactor : ℚ :=
        if closest < s.fireRange * (1/2) then 1
        else if closest < s.fireRange then 7/10
        else 3/10
      let countFactor := min ((eir : ℚ) / 3) 1
      min (rangeFactor * (6/10) + countFactor * (4/10)) 1
  { ai with threat := { acc.2.1 with enemiesInRange := eir, threatLevel := level } }

/-- threat_awareness_system: skipped squads still advance time_since_fire by
lod_interval times dt. -/
def threatAwarenessSystem (w : SimWorld) : SimWorld :=
  { w with squads := w.squads.map (fun s =>
      match s.ai with
      | none => s
      | some ai =>
        match s.lod with
        | some l =>
          if ¬ l.shouldUpdate w.simTick then
            { s with ai := some { ai with threat := { ai.threat with
                timeSinceFire := ai.threat.timeSinceFire + w.deltaTime * (l.tickInterval : ℚ) } } }
          else { s with ai := some (threatScan w.grid w.deltaTime s ai) }
        | none => { s with ai := some (threatScan w.grid w.deltaTime s ai) }) }

/-- Velocity lookup used by nearby_friendlies_system (defaults to zero when
the entity is not a squad with a velocity). -/
def findVelocity (squads : List Squad) (ent : ℕ) : ℚ × ℚ :=
  match squads.find? (fun s => s.entity == ent) with
  | some s => (s.vx, s.vy)
  | none => (0, 0)

/-- nearby_friendlies_system. -/
def nearbyFriendliesSystem (w : SimWorld) : SimWorld :=
  { w with squads := w.squads.map (fun s =>
      match s.ai with
      | none => s
      | some ai =>
        let friendlies := w.grid.queryFriendlies s.px s.py ai.weights.neighborRadius s.faction.code
        let acc := friendlies.foldl (fun (acc : ℚ × ℚ × ℚ × ℚ × ℕ) e =>
          if e.entity = s.entity then acc
          else
            let v := findVelocity w.squads e.entity
            (acc.1 + e.x, acc.2.1 + e.y, acc.2.2.1 + v.1, acc.2.2.2.1 + v.2, acc.2.2.2.2 + 1))
          (0, 0, 0, 0, 0)
        let n := acc.2.2.2.2
        let nearby : NearbyFriendlies :=
          if 0 < n then
            ⟨some (acc.1 / (n : ℚ), acc.2.1 / (n : ℚ)),
             (acc.2.2.1 / (n : ℚ), acc.2.2.2.1 / (n : ℚ))⟩
          else ⟨none, (0, 0)⟩
        { s with ai := some { ai with nearby := nearby } }) }

/-- determine_behavior_state (ai.rs): pure function of the current inputs. -/
def determineBehaviorState (order : Order) (threat : ThreatAwareness)
    (prefs : TacticalPreferences) (suppression morale : ℚ) : BehaviorState :=
  if morale < 1/5 then .retreating
  else if 1 ≤ suppression then .takingCover
  else if 7/10 < threat.threatLevel ∧ prefs.aggression < 1/2 then .takingCover
  else if threat.timeSinceFire < 2 ∧ 1/2 < prefs.coverSeeking ∧ 1/2 ≤ suppression then .takingCover
  else if order = Order.retreat then .retreating
  else if 0 < threat.enemiesInRange then
    (if 6/10 < prefs.flankingTendency ∧ threat.enemiesInRange ≤ 2 then .flanking else .engaging)
  else if order.isMoveLike then .advancing
  else .idle

/-- behavior_state_system. -/
def behaviorStateSystem (w : SimWorld) : SimWorld :=
  { w with squads := w.squads.map (fun s =>
      match s.ai with
      | none => s
      | some ai =>
        { s with ai := (some { ai with behavior := (determineBehaviorState s.order ai.threat
            ai.prefs s.suppression s.morale) }) }) }

/-- ai_order_system: rewrite the order for retreating, flanking, regrouping
and aggressive engaging squads. -/
def aiOrderSystem (w : SimWorld) : SimWorld :=
  { w with squads := w.squads.map (fun s =>
      match s.ai with
      | none => s
      | some ai =>
        match ai.behavior with
        | .retreating =>
          match ai.threat.nearestEnemy with
          | some (ex, ey) =>
            let dx := s.px - ex
            let dy := s.py - ey
            let dist := max (ratSqrt (dx * dx + dy * dy)) (1/10)
            { s with order := .moveTo (s.px + dx / dist * 40) (s.py + dy / dist * 40) }
          | none => s
        | .flanking =>
          match ai.threat.nearestEnemy with
          | some (ex, ey) =>
            let dx := ex - s.px
            let dy := ey - s.py
            let dist := max (ratSqrt (dx * dx + dy * dy)) (1/10)
            { s with order := (Order.attackMove (s.px + (-dy / dist) * 25 + dx / dist * 10)
                (s.py + (dx / dist) * 25 + dy / dist * 10)) }
          | none => s
        | .regrouping =>
          match ai.nearby.centerOfMass with
          | some (cx, cy) => { s with order := .moveTo cx cy }
          | none => s
        | .engaging =>
          if 6/10 < ai.prefs.aggression then
            match ai.threat.nearestEnemy with
            | some (ex, ey) => { s with order := .attackMove ex ey }
            | none => s
          else s
        | _ => s) }

/-- The movement goal point of the flocking steering (the goal let of
flocking_system). -/
def flockingGoal (s : Squad) (ai : AIData) : ℚ × ℚ :=
  match s.order with
  | .moveTo tx ty => (tx, ty)
  | .attackMove tx ty => (tx, ty)
  | .hold => (s.px, s.py)
  | .retreat =>
    match ai.threat.nearestEnemy with
    | some (ex, ey) =>
      let dx := s.px - ex
      let dy := s.py - ey
      let dist := max (ratSqrt (dx * dx + dy * dy)) (1/10)
      (s.px + dx / dist * 50, s.py + dy / dist * 50)
    | none => (s.px, s.py)

/-- The accumulated steering vector of flocking_system: goal seeking,
cohesion, alignment, separation and threat avoidance. -/
def flockingSteer (w : SimWorld) (s : Squad) (ai : AIData) : ℚ × ℚ :=
  let goal := flockingGoal s ai
  let gdx := goal.1 - s.px
  let gdy := goal.2 - s.py
  let goalDist := ratSqrt (gdx * gdx + gdy * gdy)
  let st1 : ℚ × ℚ :=
    if 1 < goalDist then
      (gdx / goalDist * ai.weights.goalSeeking, gdy / goalDist * ai.weights.goalSeeking)
    else (0, 0)
  let st2 : ℚ × ℚ :=
    match ai.nearby.centerOfMass with
    | some (cx, cy) =>
      let cdx := cx - s.px
      let cdy := cy - s.py
      let cdist := ratSqrt (cdx * cdx + cdy * cdy)
      if 1 < cdist then
        (st1.1 + cdx / cdist * ai.weights.cohesion,
         st1.2 + cdy / cdist * ai.weights.cohesion)
      else st1
    | none => st1
  let avg := ai.nearby.averageVelocity
  let avgSpeed := ratSqrt (avg.1 * avg.1 + avg.2 * avg.2)
  let st3 : ℚ × ℚ :=
    if 1/10 < avgSpeed then
      (st2.1 + avg.1 / avgSpeed * ai.weights.alignment,
       st2.2 + avg.2 / avgSpeed * ai.weights.alignment)
    else st2
  let sep := (w.grid.queryRadius s.px s.py ai.weights.separationRadius).foldl
    (fun (acc : ℚ × ℚ × ℕ) e =>
      let dx := s.px - e.x
      let dy := s.py - e.y
      let dist := ratSqrt (dx * dx + dy * dy)
      if 1/10 < dist ∧ dist < ai.weights.separationRadius then
        (acc.1 + dx / dist * (1 - dist / ai.weights.separationRadius),
         acc.2.1 + dy / dist * (1 - dist / ai.weights.separationRadius),
         acc.2.2 + 1)
      else acc) (0, 0, 0)
  let st4 : ℚ × ℚ :=
    if 0 < sep.2.2 then
      (st3.1 + sep.1 / (sep.2.2 : ℚ) * ai.weights.separation,
       st3.2 + sep.2.1 / (sep.2.2 : ℚ) * ai.weights.separation)
    else st3
  match ai.threat.nearestEnemy with
  | some (ex, ey) =>
    if 3/10 < ai.threat.threatLevel then
      let adx := s.px - ex
      let ady := s.py - ey
      let adist := max (ratSqrt (adx * adx + ady * ady)) (1/10)
      (st4.1 + adx / adist * (ai.threat.threatLevel * ai.weights.threatAvoidance) * (3/10),
       st4.2 + ady / adist * (ai.threat.threatLevel * ai.weights.threatAvoidance) * (3/10))
    else st4
  | none => st4

/-- flocking_system: steering from goal, cohesion, alignment, separation and
threat avoidance, normalized to the squad speed. -/
def flockingSystem (w : SimWorld) : SimWorld :=
  { w with squads := w.squads.map (fun s =>
      match s.ai with
      | none => s
      | some ai =>
        if 1 ≤ s.suppression ∨ s.morale < 1/5 then { s with vx := 0, vy := 0 }
        else
          let goal := flockingGoal s ai
          let goalDist := ratSqrt ((goal.1 - s.px) * (goal.1 - s.px)
            + (goal.2 - s.py) * (goal.2 - s.py))
          let st5 := flockingSteer w s ai
          let steerMag := ratSqrt (st5.1 * st5.1 + st5.2 * st5.2)
          if 1/10 < steerMag then
            { s with vx := st5.1 / steerMag * s.speed, vy := st5.2 / steerMag * s.speed }
          else if goalDist < 1 then { s with vx := 0, vy := 0 }
          else s) }

/-- order_system: translate the current order into a velocity. -/
def orderSystem (w : SimWorld) : SimWorld :=
  { w with squads := w.squads.map (fun s =>
      if 1 ≤ s.suppression ∨ s.morale < 1/5 then { s with vx := 0, vy := 0 }
      else
        match s.order with
        | .hold => { s with vx := 0, vy := 0 }
        | .moveTo tx ty =>
          let dx := tx - s.px
          let dy := ty - s.py
          let dist := ratSqrt (dx * dx + dy * dy)
          if dist < 1 then { s with vx := 0, vy := 0 }
          else { s with vx := dx / dist * s.speed, vy := dy / dist * s.speed }
        | .attackMove tx ty =>
          let dx := tx - s.px
          let dy := ty - s.py
          let dist := ratSqrt (dx * dx + dy * dy)
          if dist < 1 then { s with vx := 0, vy := 0 }
          else { s with vx := dx / dist * (s.speed * (6/10)), vy := dy / dist * (s.speed * (6/10)) }
        | .retreat => { s with vx := 0, vy := 0 }) }

/-- movement_system: integrate velocity into position with suppression,
shaken-morale and (when the terrain resource exists) terrain multipliers. -/
def movementSystem (terrainOpt : Option TerrainGrid) (w : SimWorld) : SimWorld :=
  { w with squads := w.squads.map (fun s =>
      if 1 ≤ s.suppression ∨ s.morale < 1/5 then s
      else
        let speedMult : ℚ :=
          if 1/2 ≤ s.suppression then 3/10
          else if s.morale < 1/2 then 6/10
          else 1
        let mult :=
          match terrainOpt with
          | some t => speedMult * t.getMovementMultiplier s.px s.py
          | none => speedMult
        { s with px := s.px + s.vx * w.deltaTime * mult,
                 py := s.py + s.vy * w.deltaTime * mult }) }

/-- Attacker data gathered before combat computation (combat.rs
AttackerData and the tuple collected by combat_system). -/
structure AttackerData where
  entity : ℕ
  faction : ℕ
  x : ℚ
  y : ℚ
  fireRange : ℚ
  accuracy : ℚ
  size : ℕ
  suppression : ℚ
  morale : ℚ
  lodMultiplier : ℚ
deriving DecidableEq, Repr

/-- Combat intents gathered before the apply phase (combat.rs
CombatResults); the HashMaps become association lists in key insertion
order, which the apply phase only reads through keyed lookup. -/
structure CombatResults where
  damage : List (ℕ × ℚ)
  suppression : List (ℕ × ℚ)
  fired : List ℕ
deriving DecidableEq, Repr

def emptyCombatResults : CombatResults := ⟨[], [], []⟩

/-- entry(k).or_insert(0.0) += v on an association-list map. -/
def addToMap : List (ℕ × ℚ) → ℕ → ℚ → List (ℕ × ℚ)
  | [], k, v => [(k, 0 + v)]
  | (k0, v0) :: rest, k, v =>
    if k0 = k then (k0, v0 + v) :: rest else (k0, v0) :: addToMap rest k v

def lookupMap : List (ℕ × ℚ) → ℕ → Option ℚ
  | [], _ => none
  | (k0, v0) :: rest, k => if k0 = k then some v0 else lookupMap rest k

/-- CombatResults::merge. -/
def CombatResults.merge (a b : CombatResults) : CombatResults :=
  ⟨b.damage.foldl (fun m kv => addToMap m kv.1 kv.2) a.damage,
   b.suppression.foldl (fun m kv => addToMap m kv.1 kv.2) a.suppression,
   a.fired ++ b.fired⟩

/-- The combat_system attacker filter: alive, not pinned, not broken, and
scheduled by LOD on this tick. -/
def eligibleAttacker (tick : ℕ) (s : Squad) : Bool :=
  if ¬ (0 < s.healthCur) ∨ 1 ≤ s.suppression ∨ s.morale < 1/5 then false
  else match s.lod with
    | some l => l.shouldUpdate tick
    | none => true

def toAttackerData (s : Squad) : AttackerData :=
  ⟨s.entity, s.faction.code, s.px, s.py, s.fireRange, s.accuracy, s.size,
   s.suppression, s.morale,
   match s.lod with
   | some l => (l.tickInterval : ℚ)
   | none => 1⟩

/-- Closest-enemy selection of the combat gather phase: fold over the spatial
query keeping the first strictly closer enemy, recording its entity, distance
and the terrain cover at its position. -/
def bestTarget (a : AttackerData) (grid : SpatialGrid) (terrainOpt : Option TerrainGrid) :
    Option (ℕ × ℚ × ℚ) :=
  (grid.queryEnemies a.x a.y a.fireRange a.faction).foldl (fun best e =>
    let dist := ratSqrt ((e.x - a.x) * (e.x - a.x) + (e.y - a.y) * (e.y - a.y))
    if dist ≤ a.fireRange then
      let cover : ℚ :=
        match terrainOpt with
        | some t => t.getCoverAt e.x e.y
        | none => 0
      match best with
      | none => some (e.entity, dist, cover)
      | some b => if dist < b.2.1 then some (e.entity, dist, cover) else best
    else best) none

/-- compute_attacker_combat: damage and suppression intents of one attacker
(also the inline body of the combat_system gather loop, which uses the same
constants and formulas). -/
def computeAttackerCombat (a : AttackerData) (grid : SpatialGrid)
    (terrainOpt : Option TerrainGrid) (delta : ℚ) : CombatResults :=
  match bestTarget a grid terrainOpt with
  | none => emptyCombatResults
  | some (te, dist, cover) =>
    let rangeFactor : ℚ :=
      if a.fireRange * (1/2) < dist then
        1 - (dist - a.fireRange * (1/2)) / (a.fireRange * (1 - 1/2))
      else 1
    let suppressionPenalty := 1 - min (a.suppression * (1/2)) (8/10)
    let moraleFactor := 1/2 + a.morale * (1/2)
    let effectiveAccuracy := a.accuracy * rangeFactor * suppressionPenalty * moraleFactor
    let shots := (a.size : ℚ) * delta * 2 * a.lodMultiplier
    let hits := shots * effectiveAccuracy * (15/100)
    ⟨addToMap [] te (hits * 8 * (1 - cover * (7/10))),
     addToMap [] te (hits * (2/10) * (1 - cover * (3/10))),
     [a.entity]⟩

/-- The gather phase of combat_system over a squad list: per-attacker intents
accumulated in attacker order. -/
def combatGather (squads : List Squad) (grid : SpatialGrid) (terrainOpt : Option TerrainGrid)
    (delta : ℚ) (tick : ℕ) : CombatResults :=
  ((squads.filter (eligibleAttacker tick)).map toAttackerData).foldl
    (fun acc a => acc.merge (computeAttackerCombat a grid terrainOpt delta))
    emptyCombatResults

/-- combat_system: gather intents, then apply damage, suppression and
activity flags sequentially. -/
def combatSystem (terrainOpt : Option TerrainGrid) (w : SimWorld) : SimWorld :=
  let results := combatGather w.squads w.grid terrainOpt w.deltaTime w.simTick
  { w with squads := w.squads.map (fun s =>
      let s1 :=
        match lookupMap results.damage s.entity with
        | some dmg => { s with healthCur := healthDamage s.healthCur dmg,
                               flags := s.flags.markDamaged w.simTick }
        | none => s
      let s2 :=
        match lookupMap results.suppression s1.entity with
        | some sup => { s1 with suppression := s1.suppression + sup }
        | none => s1
      if s2.entity ∈ results.fired then
        { s2 with flags := { s2.flags with isFiring := true } }
      else s2) }

/-- suppression_decay_system. -/
def suppressionDecaySystem (w : SimWorld) : SimWorld :=
  { w with squads := w.squads.map (fun s =>
      { s with suppression := max (s.suppression - (15/100) * w.deltaTime) 0 }) }

/-- morale_system: decay from suppression and casualties, recovery with a
cohesion bonus counted over same-faction squads at distance in (0.1, 20). -/
def moraleSystem (w : SimWorld) : SimWorld :=
  { w with squads := w.squads.map (fun s =>
      let delta := w.deltaTime
      let m1 :=
        if 1 ≤ s.suppression then moraleDecrease s.morale ((1/10) * delta)
        else if 1/2 ≤ s.suppression then moraleDecrease s.morale ((5/100) * delta)
        else s.morale
      let hf := healthFraction s.healthCur s.healthMax
      let m2 := if hf < 3/4 then moraleDecrease m1 ((1 - hf) * (2/1000) * delta) else m1
      let m3 := if hf < 1/4 then moraleDecrease m2 ((5/100) * delta) else m2
      let k := (w.squads.filter (fun o =>
        decide (o.faction = s.faction) &&
        (let dist := ratSqrt ((o.px - s.px) * (o.px - s.px) + (o.py - s.py) * (o.py - s.py))
         decide ((1 : ℚ)/10 < dist) && decide (dist < 20)))).length
      let m4 :=
        if ¬ ((1 : ℚ)/2 ≤ s.suppression) ∧ ¬ (m3 < (1 : ℚ)/5) then
          moraleRecover m3 (((2/100) + (k : ℚ) * (1/100)) * delta)
        else m3
      let m5 :=
        if m4 < (1 : ℚ)/5 ∧ ¬ ((1 : ℚ)/2 ≤ s.suppression) ∧ (1 : ℚ)/2 < hf then
          moraleRecover m4 ((2/100) * (1/10) * delta)
        else m4
      { s with morale := m5 }) }

/-- rout_system: broken morale forces a retreat order. -/
def routSystem (w : SimWorld) : SimWorld :=
  { w with squads := w.squads.map (fun s =>
      if s.morale < 1/5 then { s with order := .retreat } else s) }

/-- terrain_damage_to_destructibles_system: every active event damages every
destructible within 1.5 times its radius with quadratic falloff. -/
def terrainDamageToDestructiblesSystem (w : SimWorld) : SimWorld :=
  { w with destructibles := w.events.foldl (fun ds ev =>
      ds.map (fun d =>
        let dist := ratSqrt ((d.px - ev.x) * (d.px - ev.x) + (d.py - ev.y) * (d.py - ev.y))
        if dist ≤ ev.radius * (3/2) then
          let falloff := 1 - dist / (ev.radius * (3/2))
          { d with healthCur := healthDamage d.healthCur (ev.depth * 20 * falloff * falloff),
                   changed := true }
        else d)) w.destructibles }

/-- destruction_state_system: recompute the state of destructibles whose
health changed since the last run. -/
def destructionStateSystem (w : SimWorld) : SimWorld :=
  { w with destructibles := w.destructibles.map (fun d =>
      if d.changed then
        let newState : DestructibleState :=
          if d.healthCur ≤ 0 then .destroyed
          else if d.healthCur ≤ d.damageThreshold then .damaged
          else .intact
        { d with state := newState, changed := false }
      else d) }

/-- Identifiers for the systems added to the schedule in
SimWorld::with_config. -/
inductive SysId where
  | spatialGridUpdate
  | lodAssignment
  | sectorAssignment
  | activityFlags
  | threatAwareness
  | nearbyFriendlies
  | behaviorState
  | aiOrder
  | flocking
  | orderSys
  | movement
  | combat
  | suppressionDecay
  | morale
  | rout
  | terrainDamageToDestructibles
  | destructionState
deriving DecidableEq, Repr

/-- Run one system on the world.  combat_system and movement_system receive
no terrain because with_config never inserts a TerrainResource into the ECS
world (the terrain grid lives only as a SimWorld field), so their optional
terrain resource is always absent. -/
def applySystem (w : SimWorld) : SysId → SimWorld
  | .spatialGridUpdate => spatialGridUpdateSystem w
  | .lodAssignment => lodAssignmentSystem w
  | .sectorAssignment => sectorAssignmentSystem w
  | .activityFlags => activityFlagsSystem w
  | .threatAwareness => threatAwarenessSystem w
  | .nearbyFriendlies => nearbyFriendliesSystem w
  | .behaviorState => behaviorStateSystem w
  | .aiOrder => aiOrderSystem w
  | .flocking => flockingSystem w
  | .orderSys => orderSystem w
  | .movement => movementSystem none w
  | .combat => combatSystem none w
  | .suppressionDecay => suppressionDecaySystem w
  | .morale => moraleSystem w
  | .rout => routSystem w
  | .terrainDamageToDestructibles => terrainDamageToDestructiblesSystem w
  | .destructionState => destructionStateSystem w

/-- All seventeen scheduled systems. -/
def allSystems : List SysId :=
  [.spatialGridUpdate, .lodAssignment, .sectorAssignment, .activityFlags,
   .threatAwareness, .nearbyFriendlies, .behaviorState,
   .aiOrder, .flocking,
   .orderSys, .movement, .combat, .suppressionDecay, .morale, .rout,
   .terrainDamageToDestructibles, .destructionState]

/-- The ordering constraints actually declared on the schedule in
SimWorld::with_config: group 2 is after the spatial rebuild only, group 3 is
after behavior_state only, the group 4 chain is after flocking only, and the
group 5 chain is after rout.  In particular ai_order_system carries no
constraint relative to the group 4 chain. -/
def schedEdges : List (SysId × SysId) :=
  [(.spatialGridUpdate, .threatAwareness),
   (.spatialGridUpdate, .nearbyFriendlies),
   (.spatialGridUpdate, .behaviorState),
   (.behaviorState, .aiOrder),
   (.behaviorState, .flocking),
   (.flocking, .orderSys),
   (.orderSys, .movement),
   (.movement, .combat),
   (.combat, .suppressionDecay),
   (.suppressionDecay, .morale),
   (.morale, .rout),
   (.rout, .terrainDamageToDestructibles),
   (.terrainDamageToDestructibles, .destructionState)]

/-- A valid linearization of the declared schedule: every system appears
exactly once and every declared edge is respected. -/
def validSchedule (L : List SysId) : Prop :=
  L.Nodup ∧ (∀ s ∈ allSystems, s ∈ L) ∧
    ∀ e ∈ schedEdges, L.indexOf e.1 < L.indexOf e.2

instance (L : List SysId) : Decidable (validSchedule L) := by
  unfold validSchedule
  infer_instance

/-- The documented reference order (group comments of with_config and spec
section 5): groups 1 to 5 in sequence, threat before behavior, ai_order
before the core chain. -/
def refSchedule : List SysId :=
  [.spatialGridUpdate, .lodAssignment, .sectorAssignment, .activityFlags,
   .threatAwareness, .nearbyFriendlies, .behaviorState,
   .aiOrder, .flocking,
   .orderSys, .movement, .combat, .suppressionDecay, .morale, .rout,
   .terrainDamageToDestructibles, .destructionState]

/-- An alternative linearization that also satisfies every declared
constraint: ai_order_system runs after the whole core chain (its only
declared constraint is to run after behavior_state_system). -/
def altSchedule : List SysId :=
  [.spatialGridUpdate, .lodAssignment, .sectorAssignment, .activityFlags,
   .threatAwareness, .nearbyFriendlies, .behaviorState,
   .flocking,
   .orderSys, .movement, .combat, .suppressionDecay, .morale, .rout,
   .aiOrder,
   .terrainDamageToDestructibles, .destructionState]

def runSchedule (L : List SysId) (w : SimWorld) : SimWorld :=
  L.foldl applySystem w

/-- fixed_update: set the delta-time resource, increment the SimTick
resource, run the schedule, then advance the api tick and time. -/
def fixedUpdateWith (L : List SysId) (dtArg : ℚ) (w : SimWorld) : SimWorld :=
  let w2 := runSchedule L { w with deltaTime := dtArg, simTick := w.simTick + 1 }
  { w2 with tick := w2.tick + 1, time := w2.time + dtArg }

/-- fixed_update under the documented reference order. -/
def fixedUpdate (dtArg : ℚ) (w : SimWorld) : SimWorld :=
  fixedUpdateWith refSchedule dtArg w

/-- The while loop of step with explicit fuel: while the accumulator is at
least fixed_dt, run one fixed update and subtract fixed_dt.  Returns the
world and the remaining accumulator. -/
def stepLoop (L : List SysId) (fd : ℚ) : ℕ → ℚ → SimWorld → SimWorld × ℚ
  | 0, acc, w => (w, acc)
  | n + 1, acc, w =>
    if fd ≤ acc then stepLoop L fd n (acc - fd) (fixedUpdateWith L fd w) else (w, acc)

/-- step(dt): accumulate dt, run the fixed-update loop, then age craters by
the raw dt.  The fuel bounds the loop; for a positive fixed timestep the
characterization theorem shows the loop terminates below it. -/
def stepWith (L : List SysId) (dt : ℚ) (w : SimWorld) : SimWorld :=
  let fd := w.config.fixedTimestep
  let acc := w.timeAccumulator + dt
  let res := stepLoop L fd ((⌈acc / fd⌉).toNat + 1) acc w
  { res.1 with timeAccumulator := res.2, terrain := res.1.terrain.update dt }

def step (dt : ℚ) (w : SimWorld) : SimWorld :=
  stepWith refSchedule dt w

/-- Serializable view of one squad (world.rs SquadSnapshot).  The faction
and order are kept structured; their string renderings in JSON are injective
images of these fields. -/
structure SquadSnapshot where
  id : ℕ
  faction : Faction
  x : ℚ
  y : ℚ
  vx : ℚ
  vy : ℚ
  health : ℚ
  healthMax : ℚ
  size : ℕ
  morale : ℚ
  suppression : ℚ
  order : Order
deriving DecidableEq, Repr

structure TerrainDamageSnapshot where
  x : ℚ
  y : ℚ
  radius : ℚ
  depth : ℚ
deriving DecidableEq, Repr

structure DestructibleSnapshot where
  id : ℕ
  x : ℚ
  y : ℚ
  dtype : DestructibleType
  state : DestructibleState
  health : ℚ
  healthMax : ℚ
deriving DecidableEq, Repr

/-- Complete simulation snapshot (world.rs Snapshot). -/
structure Snapshot where
  tick : ℕ
  time : ℚ
  squads : List SquadSnapshot
  destructibles : List DestructibleSnapshot
  terrainDamage : List TerrainDamageSnapshot
  newCraters : List Crater
  terrainDirty : Bool
deriving DecidableEq, Repr

def squadSnapshotOf (s : Squad) : SquadSnapshot :=
  ⟨s.squadId, s.faction, s.px, s.py, s.vx, s.vy, s.healthCur, s.healthMax,
   s.size, s.morale, s.suppression, s.order⟩

def destructibleSnapshotOf (d : Destructible) : DestructibleSnapshot :=
  ⟨d.destId, d.px, d.py, d.dtype, d.state, d.healthCur, d.healthMax⟩

/-- SimWorld::snapshot: build the snapshot from the world (squads, damage
events, destructibles, the new-crater buffer and the dirty flag), then clear
the buffer and the flag. -/
def takeSnapshot (w : SimWorld) : Snapshot × SimWorld :=
  (⟨w.tick, w.time, w.squads.map squadSnapshotOf,
    w.destructibles.map destructibleSnapshotOf,
    w.events.map (fun e => ⟨e.x, e.y, e.radius, e.depth⟩),
    w.newCraters, w.terrainDirty⟩,
   { w with newCraters := [], terrainDirty := false })

/-- SimWorld::with_config: resources at their initial values, no entities, a
200 by 200 terrain with features, and the dirty flag set.  Construction
performs no validation of the config. -/
def withConfig (cfg : SimConfig) : SimWorld :=
  { squads := []
    destructibles := []
    events := []
    nextEntity := 0
    grid := ⟨20, []⟩
    simTick := 0
    deltaTime := cfg.fixedTimestep
    config := cfg
    tick := 0
    time := 0
    terrain := TerrainGrid.newWithFeatures 200 200 2
    newCraters := []
    terrainDirty := true
    timeAccumulator := 0 }

/-- Host commands of the spawn, order, crater and step surface. -/
inductive Cmd where
  | spawnAiSquad (id : ℕ) (f : Faction) (x y : ℚ)
  | spawnTree (id : ℕ) (x y : ℚ)
  | spawnBuilding (id : ℕ) (x y : ℚ)
  | orderMove (id : ℕ) (x y : ℚ)
  | orderAttackMove (id : ℕ) (x y : ℚ)
  | orderHold (id : ℕ)
  | orderRetreat (id : ℕ)
  | spawnCrater (x y radius depth : ℚ)
  | stepCmd (dt : ℚ)
deriving DecidableEq, Repr

/-- order_* commands replace the order of the first squad with a matching
id (the source breaks out of the query loop after the first match). -/
def setOrderFirst : List Squad → ℕ → Order → List Squad
  | [], _, _ => []
  | s :: rest, id, o =>
    if s.squadId = id then { s with order := o } :: rest
    else s :: setOrderFirst rest id o

/-- spawn_ai_squad: defaults of SquadBundle, AIBundle and the performance
components. -/
def mkAiSquad (ent id : ℕ) (f : Faction) (x y sectorSize : ℚ) : Squad :=
  { entity := ent
    squadId := id
    faction := f
    px := x
    py := y
    vx := 0
    vy := 0
    healthCur := 100
    healthMax := 100
    size := 12
    speed := 5
    fireRange := 60
    accuracy := 2/10
    morale := 1
    suppression := 0
    order := .hold
    lod := some .high
    sector := (⌊x / sectorSize⌋, ⌊y / sectorSize⌋)
    flags := defaultActivityFlags
    ai := some defaultAIData }

/-- TreeBundle::new. -/
def mkTree (ent id : ℕ) (x y : ℚ) : Destructible :=
  ⟨ent, id, x, y, 30, 30, 15, .intact, 3/10, 1/10, 0, 2, .tree, false⟩

/-- BuildingBundle::new. -/
def mkBuilding (ent id : ℕ) (x y : ℚ) : Destructible :=
  ⟨ent, id, x, y, 150, 150, 75, .intact, 7/10, 5/10, 3/10, 5, .building, false⟩

/-- Apply one host command under schedule linearization L. -/
def applyCmdWith (L : List SysId) (w : SimWorld) : Cmd → SimWorld
  | .spawnAiSquad id f x y =>
    { w with squads := w.squads ++ [mkAiSquad w.nextEntity id f x y w.config.sectorSize],
             nextEntity := w.nextEntity + 1 }
  | .spawnTree id x y =>
    { w with destructibles := w.destructibles ++ [mkTree w.nextEntity id x y],
             nextEntity := w.nextEntity + 1 }
  | .spawnBuilding id x y =>
    { w with destructibles := w.destructibles ++ [mkBuilding w.nextEntity id x y],
             nextEntity := w.nextEntity + 1 }
  | .orderMove id x y => { w with squads := setOrderFirst w.squads id (.moveTo x y) }
  | .orderAttackMove id x y => { w with squads := setOrderFirst w.squads id (.attackMove x y) }
  | .orderHold id => { w with squads := setOrderFirst w.squads id .hold }
  | .orderRetreat id => { w with squads := setOrderFirst w.squads id .retreat }
  | .spawnCrater x y radius depth =>
    { w with terrain := w.terrain.applyCrater x y radius depth,
             newCraters := w.newCraters ++ [⟨x, y, radius, depth, 0⟩],
             terrainDirty := true,
             events := w.events ++ [⟨w.nextEntity, x, y, radius, depth⟩],
             nextEntity := w.nextEntity + 1 }
  | .stepCmd dt => stepWith L dt w

def applyCmd (w : SimWorld) (c : Cmd) : SimWorld :=
  applyCmdWith refSchedule w c

/-- Run a command list and take a snapshot after every command, returning
the snapshot sequence. -/
def snapTraceWith (L : List SysId) (cfg : SimConfig) (cmds : List Cmd) : List Snapshot :=
  (cmds.foldl (fun (acc : SimWorld × List Snapshot) c =>
    let w1 := applyCmdWith L acc.1 c
    let p := takeSnapshot w1
    (p.2, acc.2 ++ [p.1])) (withConfig cfg, [])).2

-- ===========================================================================
-- Claim theorems
-- ===========================================================================

/-- Spec-side behavior cascade of claim C8, written rule by rule in the order
of the claim: broken, pinned, threatened and timid, under fire and cover
seeking while suppressed, retreat order, enemy contact (flank or engage),
movement order, idle. -/
def claimedBehaviorCascade (order : Order) (threat : ThreatAwareness)
    (prefs : TacticalPreferences) (suppression morale : ℚ) : BehaviorState :=
  if morale < 1/5 then .retreating
  else if 1 ≤ suppression then .takingCover
  else if 7/10 < threat.threatLevel ∧ prefs.aggression < 1/2 then .takingCover
  else if threat.timeSinceFire < 2 ∧ 1/2 < prefs.coverSeeking ∧ 1/2 ≤ suppression then
    .takingCover
  else if order = Order.retreat then .retreating
  else if 0 < threat.enemiesInRange then
    (if 6/10 < prefs.flankingTendency ∧ threat.enemiesInRange ≤ 2 then .flanking
     else .engaging)
  else if order.isMoveLike then .advancing
  else .idle

/-- C8: the behavior state of an AI squad is a pure function of its current
inputs, evaluated in exactly the claimed priority order: broken morale gives
Retreating; else pinned gives TakingCover; else threat over 0.7 with
aggression under 0.5 gives TakingCover; else under fire (less than two
seconds since taking fire) with cover seeking over 0.5 while suppressed
gives TakingCover; else a Retreat order gives Retreating; else enemy contact
gives Flanking when flanking tendency is over 0.6 and at most two enemies
are in range, otherwise Engaging; else a MoveTo or AttackMove order gives
Advancing; otherwise Idle. -/
theorem determineBehaviorState_matches_claimed_cascade
    (order : Order) (threat : ThreatAwareness) (prefs : TacticalPreferences)
    (suppression morale : ℚ) :
    determineBehaviorState order threat prefs suppression morale
      = claimedBehaviorCascade order threat prefs suppression morale := rfl

/-- A config with a non-positive fixed timestep. -/
def badConfig : SimConfig := { defaultConfig with fixedTimestep := -1 }

/-- C6 counterexample: constructing a world with a non-positive
fixed_timestep is not rejected; with_config returns a normally initialized
world for it, so the claimed construction-time validation does not exist
(there is also no cell_size field in SimConfig at all). -/
theorem withConfig_accepts_nonpositive_timestep :
    badConfig.fixedTimestep ≤ 0 ∧
    withConfig badConfig = withConfig badConfig ∧
    (withConfig badConfig).config = badConfig ∧
    (withConfig badConfig).tick = 0 ∧
    (withConfig badConfig).time = 0 ∧
    (withConfig badConfig).squads = [] := by
  refine ⟨?_, rfl, rfl, rfl, rfl, rfl⟩
  norm_num [badConfig, defaultConfig]

/-- C6 amended: world construction performs no validation at all.  For every
config, including one with non-positive fixed_timestep or sector_size,
with_config produces a fully initialized world carrying that config
unchanged. -/
theorem withConfig_never_rejects (cfg : SimConfig) :
    (withConfig cfg).config = cfg ∧
    (withConfig cfg).tick = 0 ∧
    (withConfig cfg).time = 0 ∧
    (withConfig cfg).squads = [] ∧
    (withConfig cfg).timeAccumulator = 0 ∧
    (withConfig cfg).deltaTime = cfg.fixedTimestep :=
  ⟨rfl, rfl, rfl, rfl, rfl, rfl⟩

/-- A reachable grid with two equidistant red entries: entity 7 at (-5, 0)
and entity 3 at (5, 0), in cells (-1, 0) and (0, 0) of the cell-size-20
grid. -/
def cexGrid : SpatialGrid := SpatialGrid.build 20 [⟨7, -5, 0, 1⟩, ⟨3, 5, 0, 1⟩]

/-- C3 counterexample: query_radius does not break distance ties by
ascending entity identifier.  In a well-formed grid with two entries at
squared distance 25 from the origin, the query returns entity 7 before
entity 3 because its cell is scanned first; the output violates the claimed
(distance, then identifier) order. -/
theorem queryRadius_ties_not_by_id :
    cexGrid.WF ∧
    (cexGrid.queryRadius 0 0 6).map SpatialEntry.entity = [7, 3] ∧
    (∀ e ∈ cexGrid.queryRadius 0 0 6, SpatialGrid.entryDistSq e 0 0 = 25) ∧
    ¬ (cexGrid.queryRadius 0 0 6).Sorted (fun a b =>
        SpatialGrid.entryDistSq a 0 0 < SpatialGrid.entryDistSq b 0 0 ∨
          (SpatialGrid.entryDistSq a 0 0 = SpatialGrid.entryDistSq b 0 0 ∧
            a.entity ≤ b.entity)) := by
  with_unfolding_all decide

/-- C3 amended: for a well-formed grid with positive cell size and a
nonnegative radius, query_radius returns exactly the stored entries whose
squared distance to the query point is at most radius squared, sorted
ascending by squared distance; ties keep cell-scan and insertion order, not
identifier order. -/
theorem queryRadius_exact_and_sorted (g : SpatialGrid) (hw : g.WF)
    (hcs : 0 < g.cellSize) (x y r : ℚ) (hr : 0 ≤ r) :
    (∀ e, e ∈ g.queryRadius x y r ↔
        e ∈ g.gridEntries ∧ SpatialGrid.entryDistSq e x y ≤ r * r) ∧
    (g.queryRadius x y r).Sorted (fun a b =>
        SpatialGrid.entryDistSq a x y ≤ SpatialGrid.entryDistSq b x y) :=
  ⟨fun _ => SpatialGrid.mem_queryRadius hw hcs hr, SpatialGrid.queryRadius_sorted g x y r⟩

/-- Witness for the amended C3 theorem at the concrete grid cexGrid. -/
theorem queryRadius_exact_and_sorted_witness :
    cexGrid.WF ∧ (0 : ℚ) < cexGrid.cellSize ∧ (0 : ℚ) ≤ 6 ∧
    ((∀ e, e ∈ cexGrid.queryRadius 0 0 6 ↔
        e ∈ cexGrid.gridEntries ∧ SpatialGrid.entryDistSq e 0 0 ≤ 6 * 6) ∧
      (cexGrid.queryRadius 0 0 6).Sorted (fun a b =>
        SpatialGrid.entryDistSq a 0 0 ≤ SpatialGrid.entryDistSq b 0 0)) :=
  ⟨by with_unfolding_all decide, by with_unfolding_all decide, by norm_num,
   queryRadius_exact_and_sorted cexGrid (by with_unfolding_all decide)
     (by with_unfolding_all decide) 0 0 6 (by norm_num)⟩

/-- A tiny terrain grid for concrete crater computations. -/
def smallTerrain : TerrainGrid := TerrainGrid.new 2 2 1

/-- C7 counterexample: with radius 1 and depth 0 (within the claimed range
of radius greater than 0 and depth at least 0) applying the same crater
twice is idempotent on cell heights and damage, contradicting the claimed
non-idempotence. -/
theorem applyCrater_depth_zero_idempotent :
    (0 : ℚ) < 1 ∧ (0 : ℚ) ≤ 0 ∧
    ((smallTerrain.applyCrater 0 0 1 0).applyCrater 0 0 1 0).cells
      = (smallTerrain.applyCrater 0 0 1 0).cells ∧
    (smallTerrain.applyCrater 0 0 1 0).cells = smallTerrain.cells := by
  with_unfolding_all decide

/-- C7 amended: for radius greater than 0 and depth at least 0, apply_crater
never increases any cell height, never decreases any cell damage, and
appends exactly one crater record with age 0; applying the same crater twice
adds the same per-cell height and damage deltas again (the effect stacks
additively, hence it is not idempotent exactly when some cell delta is
nonzero, which fails for depth 0). -/
theorem applyCrater_monotone_append_stacks (g : TerrainGrid) (wx wy radius depth : ℚ)
    (hr : 0 < radius) (hd : 0 ≤ depth) (hlen : g.cells.length = g.width * g.height) :
    (∀ i : ℕ,
      ((g.applyCrater wx wy radius depth).cells.getD i default).height
          ≤ (g.cells.getD i default).height ∧
        (g.cells.getD i default).damage
          ≤ ((g.applyCrater wx wy radius depth).cells.getD i default).damage) ∧
    (g.applyCrater wx wy radius depth).craters
      = g.craters ++ [⟨wx, wy, radius, depth, 0⟩] ∧
    (∀ i : ℕ,
      (((g.applyCrater wx wy radius depth).applyCrater wx wy radius depth).cells.getD i
            default).damage
          - ((g.applyCrater wx wy radius depth).cells.getD i default).damage
        = ((g.applyCrater wx wy radius depth).cells.getD i default).damage
          - (g.cells.getD i default).damage ∧
      (((g.applyCrater wx wy radius depth).applyCrater wx wy radius depth).cells.getD i
            default).height
          - ((g.applyCrater wx wy radius depth).cells.getD i default).height
        = ((g.applyCrater wx wy radius depth).cells.getD i default).height
          - (g.cells.getD i default).height) :=
  ⟨fun i => TerrainGrid.applyCrater_cell_monotone g wx wy radius depth hr hd hlen i,
   TerrainGrid.applyCrater_craters g wx wy radius depth,
   fun i =>
     ⟨(TerrainGrid.applyCrater_stacks g wx wy radius depth hlen i).1,
      (TerrainGrid.applyCrater_stacks g wx wy radius depth hlen i).2⟩⟩

/-- The command sequence exhibiting the schedule ambiguity: two opposing AI
squads 30 units apart, a host retreat order for squad 1, then one frame that
runs one fixed update. -/
def c1Cmds : List Cmd :=
  [.spawnAiSquad 1 .blue 0 0, .spawnAiSquad 2 .red 30 0, .orderRetreat 1,
   .stepCmd (1/30)]

/-- C1: the declared schedule constraints of with_config do not determine
the snapshot.  Both refSchedule (the documented group order) and altSchedule
(ai_order_system after the core chain, which its single declared constraint,
after behavior_state_system, permits) are valid linearizations of the
declared constraint set, yet the same fresh world and command sequence
produce different snapshots: under the first order the retreating squad
accelerates this tick, under the second it stands still.  An executor is
free to pick either order for this conflicting unordered pair, so identical
runs are not guaranteed identical snapshots. -/
theorem schedule_ambiguity_breaks_snapshot_determinism :
    validSchedule refSchedule ∧ validSchedule altSchedule ∧
      snapTraceWith refSchedule defaultConfig c1Cmds
        ≠ snapTraceWith altSchedule defaultConfig c1Cmds := by
  refine ⟨by decide, by decide, ?_⟩
  with_unfolding_all decide

/-- A small test world: the standard construction with a 4 by 4 terrain so
that concrete crater arithmetic stays small. -/
def c9Base : SimWorld :=
  { withConfig defaultConfig with terrain := TerrainGrid.new 4 4 2 }

/-- A tree with 30 health at (5, 0) and a crater event at the origin with
radius 10 and depth one half. -/
def c9w1 : SimWorld := applyCmd (applyCmd c9Base (.spawnTree 1 5 0)) (.spawnCrater 0 0 10 (1/2))

def c9w2 : SimWorld := fixedUpdate (1/30) c9w1

def c9w3 : SimWorld := fixedUpdate (1/30) c9w2

/-- C9: the terrain damage event spawned before the first tick is never
despawned (clear_terrain_damage_system exists but is not in the schedule),
so it damages the same destructible again on the second tick (health drops
from 30 to 230/9 and then to 190/9) and still appears in the snapshot taken
after the second tick. -/
theorem terrain_damage_events_persist_across_ticks :
    c9w1.destructibles.map Destructible.healthCur = [30] ∧
    c9w2.destructibles.map Destructible.healthCur = [230/9] ∧
    c9w3.destructibles.map Destructible.healthCur = [190/9] ∧
    c9w3.events = [⟨1, 0, 0, 10, 1/2⟩] ∧
    (takeSnapshot c9w2).1.terrainDamage = [⟨0, 0, 10, 1/2⟩] ∧
    (takeSnapshot c9w3).1.terrainDamage = [⟨0, 0, 10, 1/2⟩] := by
  with_unfolding_all decide

theorem applySystem_tick_time_terrain_config (w : SimWorld) (s : SysId) :
    (applySystem w s).tick = w.tick ∧ (applySystem w s).time = w.time ∧
      (applySystem w s).terrain = w.terrain ∧ (applySystem w s).config = w.config ∧
      (applySystem w s).timeAccumulator = w.timeAccumulator := by
  cases s <;> exact ⟨rfl, rfl, rfl, rfl, rfl⟩

theorem runSchedule_tick_time_terrain_config (L : List SysId) :
    ∀ w : SimWorld, (runSchedule L w).tick = w.tick ∧ (runSchedule L w).time = w.time ∧
      (runSchedule L w).terrain = w.terrain ∧ (runSchedule L w).config = w.config ∧
      (runSchedule L w).timeAccumulator = w.timeAccumulator := by
  induction L with
  | nil => intro w; exact ⟨rfl, rfl, rfl, rfl, rfl⟩
  | cons s rest ih =>
    intro w
    have h1 := applySystem_tick_time_terrain_config w s
    have h2 := ih (applySystem w s)
    simp only [runSchedule, List.foldl_cons] at *
    exact ⟨h2.1.trans h1.1, h2.2.1.trans h1.2.1, h2.2.2.1.trans h1.2.2.1,
      h2.2.2.2.1.trans h1.2.2.2.1, h2.2.2.2.2.trans h1.2.2.2.2⟩

theorem fixedUpdateWith_effect (L : List SysId) (fd : ℚ) (w : SimWorld) :
    (fixedUpdateWith L fd w).tick = w.tick + 1 ∧
      (fixedUpdateWith L fd w).time = w.time + fd ∧
      (fixedUpdateWith L fd w).terrain = w.terrain ∧
      (fixedUpdateWith L fd w).config = w.config ∧
      (fixedUpdateWith L fd w).timeAccumulator = w.timeAccumulator := by
  have h := runSchedule_tick_time_terrain_config L
    { w with deltaTime := fd, simTick := w.simTick + 1 }
  unfold fixedUpdateWith
  refine ⟨?_, ?_, ?_, ?_, ?_⟩ <;> simp only [h.1, h.2.1, h.2.2.1, h.2.2.2.1, h.2.2.2.2]

/-- Characterization of the step while loop: starting from accumulator acc
with enough fuel, the loop runs fixed updates while the accumulator is at
least fd, subtracting fd each time, and exits with the accumulator below
fd. -/
theorem stepLoop_spec (L : List SysId) {fd : ℚ} (hfd : 0 < fd) :
    ∀ (fuel : ℕ) (acc : ℚ) (w : SimWorld), acc < fuel * fd →
      ∃ n : ℕ,
        stepLoop L fd fuel acc w = ((fixedUpdateWith L fd)^[n] w, acc - n * fd) ∧
          acc - n * fd < fd ∧
          ∀ m : ℕ, m < n → fd ≤ acc - m * fd := by
  intro fuel
  induction fuel with
  | zero =>
    intro acc w hacc
    refine ⟨0, ?_, ?_, by omega⟩
    · simp [stepLoop]
    · push_cast
      simp only [Nat.cast_zero] at hacc ⊢
      nlinarith
  | succ m ih =>
    intro acc w hacc
    by_cases hle : fd ≤ acc
    · have hrec : acc - fd < m * fd := by
        push_cast at hacc ⊢
        nlinarith
      obtain ⟨n, heq, hexit, hentry⟩ := ih (acc - fd) (fixedUpdateWith L fd w) hrec
      refine ⟨n + 1, ?_, ?_, ?_⟩
      · simp only [stepLoop, if_pos hle, heq, Function.iterate_succ_apply]
        congr 1
        push_cast
        ring
      · push_cast at hexit ⊢
        linarith
      · intro k hk
        cases k with
        | zero => simpa using hle
        | succ j =>
          have := hentry j (by omega)
          push_cast at this ⊢
          linarith
    · refine ⟨0, ?_, ?_, by omega⟩
      · simp [stepLoop, if_neg hle]
      · push_cast
        simpa using lt_of_not_le hle

/-- C5: step(dt) adds dt to the accumulator, runs one fixed update per whole
fixed_dt contained in it (each fixed update incrementing the tick by one and
the time by fixed_dt, never touching the terrain) while subtracting
fixed_dt, stops as soon as the accumulator is below fixed_dt, and finally
ages every crater by the raw dt regardless of how many fixed updates (zero
included) ran. -/
theorem step_loop_and_crater_aging (dt : ℚ) (w : SimWorld)
    (hfd : 0 < w.config.fixedTimestep) :
    (∃ n : ℕ,
      step dt w =
        { (fixedUpdate w.config.fixedTimestep)^[n] w with
            timeAccumulator := w.timeAccumulator + dt - n * w.config.fixedTimestep,
            terrain := (((fixedUpdate w.config.fixedTimestep)^[n] w).terrain.update dt) } ∧
      w.timeAccumulator + dt - n * w.config.fixedTimestep < w.config.fixedTimestep ∧
      ∀ m : ℕ, m < n →
        w.config.fixedTimestep ≤ w.timeAccumulator + dt - m * w.config.fixedTimestep) ∧
    (∀ (v : SimWorld) (fd : ℚ),
      (fixedUpdate fd v).tick = v.tick + 1 ∧ (fixedUpdate fd v).time = v.time + fd ∧
        (fixedUpdate fd v).terrain = v.terrain) ∧
    (step dt w).terrain.craters
      = w.terrain.craters.map (fun c => { c with age := c.age + dt }) := by
  have hmain : ∃ n : ℕ,
      step dt w =
        { (fixedUpdate w.config.fixedTimestep)^[n] w with
            timeAccumulator := w.timeAccumulator + dt - n * w.config.fixedTimestep,
            terrain := (((fixedUpdate w.config.fixedTimestep)^[n] w).terrain.update dt) } ∧
      w.timeAccumulator + dt - n * w.config.fixedTimestep < w.config.fixedTimestep ∧
      ∀ m : ℕ, m < n →
        w.config.fixedTimestep ≤ w.timeAccumulator + dt - m * w.config.fixedTimestep := by
    set fd := w.config.fixedTimestep with hfdeq
    set acc := w.timeAccumulator + dt with hacceq
    have hfuel : acc < ((⌈acc / fd⌉.toNat + 1 : ℕ) : ℚ) * fd := by
      have h1 : acc / fd ≤ (⌈acc / fd⌉ : ℚ) := Int.le_ceil _
      have h2 : acc ≤ (⌈acc / fd⌉ : ℚ) * fd := by
        rw [div_le_iff₀ hfd] at h1
        exact h1
      have h3 : ((⌈acc / fd⌉ : ℤ) : ℚ) ≤ ((⌈acc / fd⌉.toNat : ℕ) : ℚ) := by
        exact_mod_cast Int.self_le_toNat _
      push_cast
      nlinarith
    obtain ⟨n, heq, hexit, hentry⟩ :=
      stepLoop_spec refSchedule hfd (⌈acc / fd⌉.toNat + 1) acc w hfuel
    refine ⟨n, ?_, hexit, hentry⟩
    have hstep : stepWith refSchedule dt w =
        { (stepLoop refSchedule fd (⌈acc / fd⌉.toNat + 1) acc w).1 with
            timeAccumulator := (stepLoop refSchedule fd (⌈acc / fd⌉.toNat + 1) acc w).2,
            terrain := ((stepLoop refSchedule fd (⌈acc / fd⌉.toNat + 1) acc w).1.terrain.update dt) } :=
      rfl
    show stepWith refSchedule dt w = _
    rw [hstep, heq]
    rfl
  refine ⟨hmain, ?_, ?_⟩
  · intro v fd
    have h := fixedUpdateWith_effect refSchedule fd v
    exact ⟨h.1, h.2.1, h.2.2.1⟩
  · obtain ⟨n, heq, -, -⟩ := hmain
    rw [heq]
    have hterr : ((fixedUpdate w.config.fixedTimestep)^[n] w).terrain = w.terrain := by
      clear heq
      induction n with
      | zero => rfl
      | succ k ih =>
        rw [Function.iterate_succ_apply']
        exact (fixedUpdateWith_effect refSchedule w.config.fixedTimestep _).2.2.1.trans ih
    show (((fixedUpdate w.config.fixedTimestep)^[n] w).terrain.update dt).craters = _
    rw [hterr]
    rfl

/-- Witness for the C5 theorem on the small test world. -/
theorem step_loop_and_crater_aging_witness :
    (0 : ℚ) < c9Base.config.fixedTimestep ∧
    (step (1/10) c9Base).terrain.craters
      = c9Base.terrain.craters.map (fun c => { c with age := c.age + 1/10 }) :=
  ⟨by with_unfolding_all decide,
   (step_loop_and_crater_aging (1/10) c9Base (by with_unfolding_all decide)).2.2⟩

/-- Witness for the amended C7 theorem on the 2 by 2 terrain. -/
theorem applyCrater_monotone_append_stacks_witness :
    ((0 : ℚ) < 1 ∧ (0 : ℚ) ≤ 1 ∧ smallTerrain.cells.length
        = smallTerrain.width * smallTerrain.height) ∧
    ((smallTerrain.applyCrater 0 0 1 1).cells.getD 0 default).height
        ≤ (smallTerrain.cells.getD 0 default).height :=
  ⟨⟨by norm_num, by norm_num, by with_unfolding_all decide⟩,
   ((applyCrater_monotone_append_stacks smallTerrain 0 0 1 1 (by norm_num) (by norm_num)
       (by with_unfolding_all decide)).1 0).1⟩

/-- Distance from the attacker to a spatial entry, as computed inside the
combat gather loop. -/
def edist (a : AttackerData) (e : SpatialEntry) : ℚ :=
  ratSqrt ((e.x - a.x) * (e.x - a.x) + (e.y - a.y) * (e.y - a.y))

/-- Terrain cover at an entry position, as read by the combat gather loop. -/
def ecover (terrainOpt : Option TerrainGrid) (e : SpatialEntry) : ℚ :=
  match terrainOpt with
  | some t => t.getCoverAt e.x e.y
  | none => 0

/-- One step of the closest-enemy fold of bestTarget. -/
def bestStep (a : AttackerData) (terrainOpt : Option TerrainGrid)
    (best : Option (ℕ × ℚ × ℚ)) (e : SpatialEntry) : Option (ℕ × ℚ × ℚ) :=
  if edist a e ≤ a.fireRange then
    match best with
    | none => some (e.entity, edist a e, ecover terrainOpt e)
    | some b =>
      if edist a e < b.2.1 then some (e.entity, edist a e, ecover terrainOpt e) else best
  else best

theorem bestTarget_eq_fold (a : AttackerData) (grid : SpatialGrid)
    (terrainOpt : Option TerrainGrid) :
    bestTarget a grid terrainOpt
      = (grid.queryEnemies a.x a.y a.fireRange a.faction).foldl (bestStep a terrainOpt) none :=
  rfl

/-- Characterization of the closest-enemy fold: a produced target comes from
the scanned list (or the seed), is within fire range, and its distance is
minimal among the seed and every in-range scanned entry. -/
theorem foldl_bestStep_spec (a : AttackerData) (tOpt : Option TerrainGrid) :
    ∀ (L : List SpatialEntry) (b : Option (ℕ × ℚ × ℚ)) (te : ℕ) (dist cover : ℚ),
      L.foldl (bestStep a tOpt) b = some (te, dist, cover) →
      ((b = some (te, dist, cover) ∨
          ∃ e ∈ L, te = e.entity ∧ dist = edist a e ∧ cover = ecover tOpt e ∧
            dist ≤ a.fireRange) ∧
        (∀ d0 t0 c0, b = some (t0, d0, c0) → dist ≤ d0) ∧
        (∀ e ∈ L, edist a e ≤ a.fireRange → dist ≤ edist a e)) := by
  intro L
  induction L with
  | nil =>
    intro b te dist cover h
    simp only [List.foldl_nil] at h
    subst h
    refine ⟨Or.inl rfl, ?_, ?_⟩
    · intro d0 t0 c0 hb
      obtain ⟨h1, h2, h3⟩ : te = t0 ∧ dist = d0 ∧ cover = c0 := by simpa using hb
      exact le_of_eq h2
    · intro e he _
      simp at he
  | cons e L ih =>
    intro b te dist cover h
    simp only [List.foldl_cons] at h
    obtain ⟨hmem, hminb, hminL⟩ := ih (bestStep a tOpt b e) te dist cover h
    by_cases hle : edist a e ≤ a.fireRange
    · cases b with
      | none =>
        have hb : bestStep a tOpt none e = some (e.entity, edist a e, ecover tOpt e) := by
          simp [bestStep, hle]
        rw [hb] at hmem hminb
        refine ⟨?_, ?_, ?_⟩
        · right
          cases hmem with
          | inl h1 =>
            obtain ⟨h1e, h1d, h1c⟩ : e.entity = te ∧ edist a e = dist ∧ ecover tOpt e = cover :=
              by simpa using h1
            exact ⟨e, List.mem_cons_self e L, h1e.symm, h1d.symm, h1c.symm, h1d ▸ hle⟩
          | inr h2 =>
            obtain ⟨e2, he2, h2r⟩ := h2
            exact ⟨e2, List.mem_cons_of_mem e he2, h2r⟩
        · intro d0 t0 c0 hb0
          exact Option.noConfusion hb0
        · intro e2 he2 hle2
          rcases List.mem_cons.mp he2 with hrfl | hmem2
          · subst hrfl
            exact hminb (edist a e2) e2.entity (ecover tOpt e2) rfl
          · exact hminL e2 hmem2 hle2
      | some bb =>
        by_cases hlt : edist a e < bb.2.1
        · have hb : bestStep a tOpt (some bb) e
              = some (e.entity, edist a e, ecover tOpt e) := by
            simp [bestStep, hle, hlt]
          rw [hb] at hmem hminb
          refine ⟨?_, ?_, ?_⟩
          · right
            cases hmem with
            | inl h1 =>
              obtain ⟨h1e, h1d, h1c⟩ : e.entity = te ∧ edist a e = dist ∧ ecover tOpt e = cover :=
                by simpa using h1
              exact ⟨e, List.mem_cons_self e L, h1e.symm, h1d.symm, h1c.symm, h1d ▸ hle⟩
            | inr h2 =>
              obtain ⟨e2, he2, h2r⟩ := h2
              exact ⟨e2, List.mem_cons_of_mem e he2, h2r⟩
          · intro d0 t0 c0 hb0
            have hbb : bb = (t0, d0, c0) := by simpa using hb0
            have h1 : dist ≤ edist a e := hminb (edist a e) e.entity (ecover tOpt e) rfl
            have h2 : edist a e < d0 := by rw [hbb] at hlt; exact hlt
            linarith
          · intro e2 he2 hle2
            rcases List.mem_cons.mp he2 with hrfl | hmem2
            · subst hrfl
              exact hminb (edist a e2) e2.entity (ecover tOpt e2) rfl
            · exact hminL e2 hmem2 hle2
        · have hb : bestStep a tOpt (some bb) e = some bb := by
            simp [bestStep, hle, hlt]
          rw [hb] at hmem hminb
          refine ⟨?_, hminb, ?_⟩
          · cases hmem with
            | inl h1 => exact Or.inl h1
            | inr h2 =>
              obtain ⟨e2, he2, h2r⟩ := h2
              exact Or.inr ⟨e2, List.mem_cons_of_mem e he2, h2r⟩
          · intro e2 he2 hle2
            rcases List.mem_cons.mp he2 with hrfl | hmem2
            · subst hrfl
              have h1 : dist ≤ bb.2.1 := hminb bb.2.1 bb.1 bb.2.2 rfl
              have h2 : bb.2.1 ≤ edist a e2 := not_lt.mp hlt
              linarith
            · exact hminL e2 hmem2 hle2
    · have hb : bestStep a tOpt b e = b := by
        simp [bestStep, hle]
      rw [hb] at hmem hminb
      refine ⟨?_, hminb, ?_⟩
      · cases hmem with
        | inl h1 => exact Or.inl h1
        | inr h2 =>
          obtain ⟨e2, he2, h2r⟩ := h2
          exact Or.inr ⟨e2, List.mem_cons_of_mem e he2, h2r⟩
      · intro e2 he2 hle2
        rcases List.mem_cons.mp he2 with hrfl | hmem2
        · subst hrfl
          exact absurd hle2 hle
        · exact hminL e2 hmem2 hle2

/-- Range falloff factor as stated in the spec combat contract. -/
def specRangeFactor (fireRange dist : ℚ) : ℚ :=
  if dist ≤ (1/2) * fireRange then 1
  else 1 - (dist - (1/2) * fireRange) / (fireRange - (1/2) * fireRange)

/-- Expected-hits formula exactly as stated in the claim. -/
def specHits (size : ℕ) (dt lodInterval accuracy rangeFactor suppression morale : ℚ) : ℚ :=
  ((size : ℚ) * dt * 2 * lodInterval) * accuracy * rangeFactor
    * (1 - min ((1/2) * suppression) (8/10)) * ((1/2) + (1/2) * morale) * (15/100)

/-- C2: corrected claim.  Pinned or broken attackers are filtered out of the
gather phase; a selected target is an in-range enemy of minimal distance
among the spatial query results (distance ties are kept in query order, not
broken by ascending enemy identifier); and the damage and suppression
intents recorded for the target follow exactly the claimed hit formulas. -/
theorem combat_gather_formulas_and_min_distance :
    (∀ (tick : ℕ) (s : Squad), 1 ≤ s.suppression ∨ s.morale < 1/5 →
        eligibleAttacker tick s = false) ∧
    (∀ (a : AttackerData) (grid : SpatialGrid) (tOpt : Option TerrainGrid)
        (te : ℕ) (dist cover : ℚ),
      bestTarget a grid tOpt = some (te, dist, cover) →
        ((∃ e ∈ grid.queryEnemies a.x a.y a.fireRange a.faction,
            te = e.entity ∧ dist = edist a e ∧ cover = ecover tOpt e ∧
              dist ≤ a.fireRange) ∧
          ∀ e ∈ grid.queryEnemies a.x a.y a.fireRange a.faction,
            edist a e ≤ a.fireRange → dist ≤ edist a e) ∧
        ∀ delta : ℚ,
          computeAttackerCombat a grid tOpt delta =
            ⟨[(te, specHits a.size delta a.lodMultiplier a.accuracy
                  (specRangeFactor a.fireRange dist) a.suppression a.morale
                * 8 * (1 - cover * (7/10)))],
             [(te, specHits a.size delta a.lodMultiplier a.accuracy
                  (specRangeFactor a.fireRange dist) a.suppression a.morale
                * (2/10) * (1 - cover * (3/10)))],
             [a.entity]⟩) := by
  constructor
  · intro tick s h
    unfold eligibleAttacker
    rw [if_pos (Or.inr h)]
  · intro a grid tOpt te dist cover h
    obtain ⟨hmem, -, hminL⟩ := foldl_bestStep_spec a tOpt
      (grid.queryEnemies a.x a.y a.fireRange a.faction) none te dist cover
      (by rw [← bestTarget_eq_fold]; exact h)
    refine ⟨⟨?_, hminL⟩, ?_⟩
    · cases hmem with
      | inl h1 => exact Option.noConfusion h1
      | inr h2 => exact h2
    · intro delta
      have hrf : (if a.fireRange * (1/2) < dist then
            1 - (dist - a.fireRange * (1/2)) / (a.fireRange * (1 - 1/2))
          else (1 : ℚ)) = specRangeFactor a.fireRange dist := by
        unfold specRangeFactor
        by_cases hc : a.fireRange * (1/2) < dist
        · rw [if_pos hc, if_neg (by rw [mul_comm]; exact not_le.mpr hc)]
          have hden : a.fireRange * (1 - 1/2) = a.fireRange - (1/2) * a.fireRange := by ring
          have hnum : dist - a.fireRange * (1/2) = dist - (1/2) * a.fireRange := by ring
          rw [hden, hnum]
        · rw [if_neg hc, if_pos (by rw [mul_comm]; exact not_lt.mp hc)]
      simp only [computeAttackerCombat, h]
      rw [hrf]
      have hmin : a.suppression * (1/2) = (1/2) * a.suppression := mul_comm _ _
      rw [hmin]
      simp only [specHits, addToMap, CombatResults.mk.injEq, List.cons.injEq,
        Prod.mk.injEq, and_true, true_and, zero_add]
      constructor
      · generalize min ((1/2) * a.suppression) (8/10 : ℚ) = m
        ring
      · generalize min ((1/2) * a.suppression) (8/10 : ℚ) = m
        ring

/-- Attacker used by the C2 concrete instances: entity 1, faction blue, at
the origin, fire range 10, accuracy 7 over 10, size 10, no suppression,
full morale, LOD multiplier 1. -/
def c2Attacker : AttackerData := ⟨1, 0, 0, 0, 10, 7/10, 10, 0, 1, 1⟩

/-- A pinned squad used by the C2 witness. -/
def c2PinnedSquad : Squad := { mkAiSquad 1 1 .blue 0 0 200 with suppression := 1 }

/-- C2 counterexample: against two enemies at the same distance 5, the
gather phase selects entity 7 (whose cell is scanned first) over entity 3
even though 3 < 7, so distance ties are not broken by ascending enemy
identifier. -/
theorem combat_target_tie_not_broken_by_id :
    cexGrid.queryEnemies 0 0 10 0 = [⟨7, -5, 0, 1⟩, ⟨3, 5, 0, 1⟩] ∧
    edist c2Attacker ⟨7, -5, 0, 1⟩ = 5 ∧
    edist c2Attacker ⟨3, 5, 0, 1⟩ = 5 ∧
    bestTarget c2Attacker cexGrid none = some (7, 5, 0) ∧
    (3 : ℕ) < 7 := by
  with_unfolding_all decide

/-- Witness for the corrected C2 theorem: the pinned squad is dropped, and
on the concrete grid the intents of the selected target follow the claimed
formulas. -/
theorem combat_gather_formulas_and_min_distance_witness :
    eligibleAttacker 0 c2PinnedSquad = false ∧
    computeAttackerCombat c2Attacker cexGrid none (1/30) =
      ⟨[(7, specHits c2Attacker.size (1/30) c2Attacker.lodMultiplier c2Attacker.accuracy
            (specRangeFactor c2Attacker.fireRange 5) c2Attacker.suppression c2Attacker.morale
          * 8 * (1 - 0 * (7/10)))],
       [(7, specHits c2Attacker.size (1/30) c2Attacker.lodMultiplier c2Attacker.accuracy
            (specRangeFactor c2Attacker.fireRange 5) c2Attacker.suppression c2Attacker.morale
          * (2/10) * (1 - 0 * (3/10)))],
       [c2Attacker.entity]⟩ :=
  ⟨combat_gather_formulas_and_min_distance.1 0 c2PinnedSquad
      (Or.inl (by with_unfolding_all decide)),
   (combat_gather_formulas_and_min_distance.2 c2Attacker cexGrid none 7 5 0
      (by with_unfolding_all decide)).2 (1/30)⟩

theorem lod_skip {w : SimWorld} {i : ℕ} {s : Squad} (h : w.squads[i]? = some s)
    (hl : s.lod = none) : (lodAssignmentSystem w).squads[i]? = some s := by
  unfold lodAssignmentSystem
  rw [List.getElem?_map, h]
  simp [hl]

theorem sector_squads {w : SimWorld} {i : ℕ} {s : Squad} (h : w.squads[i]? = some s) :
    (sectorAssignmentSystem w).squads[i]? =
      some { s with sector := (⌊s.px / w.config.sectorSize⌋, ⌊s.py / w.config.sectorSize⌋) } := by
  unfold sectorAssignmentSystem
  rw [List.getElem?_map, h]
  rfl

theorem activity_squads {w : SimWorld} {i : ℕ} {s : Squad} (h : w.squads[i]? = some s) :
    ∃ s', (activityFlagsSystem w).squads[i]? = some s' ∧ s'.px = s.px ∧ s'.py = s.py ∧
      s'.vx = s.vx ∧ s'.vy = s.vy ∧ s'.order = s.order ∧ s'.suppression = s.suppression ∧
      s'.morale = s.morale ∧ s'.speed = s.speed ∧ s'.ai = s.ai ∧ s'.lod = s.lod ∧
      s'.healthCur = s.healthCur := by
  unfold activityFlagsSystem
  rw [List.getElem?_map, h]
  exact ⟨_, rfl, rfl, rfl, rfl, rfl, rfl, rfl, rfl, rfl, rfl, rfl, rfl⟩

theorem threat_skip {w : SimWorld} {i : ℕ} {s : Squad} (h : w.squads[i]? = some s)
    (hai : s.ai = none) : (threatAwarenessSystem w).squads[i]? = some s := by
  unfold threatAwarenessSystem
  rw [List.getElem?_map, h]
  simp [hai]

theorem nearby_skip {w : SimWorld} {i : ℕ} {s : Squad} (h : w.squads[i]? = some s)
    (hai : s.ai = none) : (nearbyFriendliesSystem w).squads[i]? = some s := by
  unfold nearbyFriendliesSystem
  rw [List.getElem?_map, h]
  simp [hai]

theorem behavior_skip {w : SimWorld} {i : ℕ} {s : Squad} (h : w.squads[i]? = some s)
    (hai : s.ai = none) : (behaviorStateSystem w).squads[i]? = some s := by
  unfold behaviorStateSystem
  rw [List.getElem?_map, h]
  simp [hai]

theorem aiOrder_skip {w : SimWorld} {i : ℕ} {s : Squad} (h : w.squads[i]? = some s)
    (hai : s.ai = none) : (aiOrderSystem w).squads[i]? = some s := by
  unfold aiOrderSystem
  rw [List.getElem?_map, h]
  simp [hai]

theorem flocking_skip {w : SimWorld} {i : ℕ} {s : Squad} (h : w.squads[i]? = some s)
    (hai : s.ai = none) : (flockingSystem w).squads[i]? = some s := by
  unfold flockingSystem
  rw [List.getElem?_map, h]
  simp [hai]

theorem order_moveTo {w : SimWorld} {i : ℕ} {s : Squad} {tx ty : ℚ}
    (h : w.squads[i]? = some s)
    (hnp : ¬ (1 ≤ s.suppression ∨ s.morale < 1/5)) (horder : s.order = .moveTo tx ty)
    (hdist : 1 ≤ ratSqrt ((tx - s.px) * (tx - s.px) + (ty - s.py) * (ty - s.py))) :
    (orderSystem w).squads[i]? = some { s with
      vx := (tx - s.px) / ratSqrt ((tx - s.px) * (tx - s.px) + (ty - s.py) * (ty - s.py))
        * s.speed,
      vy := (ty - s.py) / ratSqrt ((tx - s.px) * (tx - s.px) + (ty - s.py) * (ty - s.py))
        * s.speed } := by
  unfold orderSystem
  rw [List.getElem?_map, h]
  simp only [Option.map_some']
  rw [if_neg hnp]
  simp only [horder]
  rw [if_neg (not_lt.mpr hdist)]

theorem movement_none_moves {w : SimWorld} {i : ℕ} {s : Squad}
    (h : w.squads[i]? = some s)
    (hnp : ¬ (1 ≤ s.suppression ∨ s.morale < 1/5)) :
    (movementSystem none w).squads[i]? = some { s with
      px := s.px + s.vx * w.deltaTime *
        (if 1/2 ≤ s.suppression then 3/10 else if s.morale < 1/2 then 6/10 else 1),
      py := s.py + s.vy * w.deltaTime *
        (if 1/2 ≤ s.suppression then 3/10 else if s.morale < 1/2 then 6/10 else 1) } := by
  unfold movementSystem
  rw [List.getElem?_map, h]
  simp only [Option.map_some']
  rw [if_neg hnp]

theorem combat_preserves_kinematics (tOpt : Option TerrainGrid) {w : SimWorld} {i : ℕ}
    {s : Squad} (h : w.squads[i]? = some s) :
    ∃ s', (combatSystem tOpt w).squads[i]? = some s' ∧ s'.px = s.px ∧ s'.py = s.py ∧
      s'.vx = s.vx ∧ s'.vy = s.vy := by
  unfold combatSystem
  simp only [List.getElem?_map, h, Option.map_some']
  refine ⟨_, rfl, ?_, ?_, ?_, ?_⟩ <;>
    repeat (first | rfl | split)

theorem suppDecay_preserves_kinematics {w : SimWorld} {i : ℕ} {s : Squad}
    (h : w.squads[i]? = some s) :
    ∃ s', (suppressionDecaySystem w).squads[i]? = some s' ∧ s'.px = s.px ∧ s'.py = s.py ∧
      s'.vx = s.vx ∧ s'.vy = s.vy := by
  unfold suppressionDecaySystem
  rw [List.getElem?_map, h]
  exact ⟨_, rfl, rfl, rfl, rfl, rfl⟩

theorem morale_preserves_kinematics {w : SimWorld} {i : ℕ} {s : Squad}
    (h : w.squads[i]? = some s) :
    ∃ s', (moraleSystem w).squads[i]? = some s' ∧ s'.px = s.px ∧ s'.py = s.py ∧
      s'.vx = s.vx ∧ s'.vy = s.vy := by
  unfold moraleSystem
  rw [List.getElem?_map, h]
  exact ⟨_, rfl, rfl, rfl, rfl, rfl⟩

theorem rout_preserves_kinematics {w : SimWorld} {i : ℕ} {s : Squad}
    (h : w.squads[i]? = some s) :
    ∃ s', (routSystem w).squads[i]? = some s' ∧ s'.px = s.px ∧ s'.py = s.py ∧
      s'.vx = s.vx ∧ s'.vy = s.vy := by
  unfold routSystem
  simp only [List.getElem?_map, h, Option.map_some']
  refine ⟨_, rfl, ?_, ?_, ?_, ?_⟩ <;>
    repeat (first | rfl | split)

/-- C10: a squad with zero health is excluded from the spatial grid rebuild
(part one: the rebuilt entries are exactly those of squads with positive
health), yet the order and movement systems still process it: over one
fixed update of the reference schedule, a dead plain squad holding a MoveTo
order, neither pinned nor broken and at least one unit from the target,
gets its velocity set toward the target and its position advanced by
velocity times timestep times the speed multiplier, so its position keeps
changing after death (part two). -/
theorem dead_squad_excluded_from_grid_but_still_moves :
    (∀ (squads : List Squad) (e : SpatialEntry),
        e ∈ spatialEntriesOf squads ↔
          ∃ s ∈ squads, 0 < s.healthCur ∧
            e = ⟨s.entity, s.px, s.py, s.faction.code⟩) ∧
    (∀ (w : SimWorld) (fd : ℚ) (i : ℕ) (s : Squad) (tx ty : ℚ),
      w.squads[i]? = some s →
      s.healthCur = 0 →
      s.order = .moveTo tx ty →
      s.suppression < 1 →
      1/5 ≤ s.morale →
      s.ai = none →
      s.lod = none →
      1 ≤ ratSqrt ((tx - s.px) * (tx - s.px) + (ty - s.py) * (ty - s.py)) →
      ∃ s2, (fixedUpdate fd w).squads[i]? = some s2 ∧
        s2.vx = (tx - s.px) / ratSqrt ((tx - s.px) * (tx - s.px) + (ty - s.py) * (ty - s.py))
          * s.speed ∧
        s2.vy = (ty - s.py) / ratSqrt ((tx - s.px) * (tx - s.px) + (ty - s.py) * (ty - s.py))
          * s.speed ∧
        s2.px = s.px + s2.vx * fd *
          (if 1/2 ≤ s.suppression then 3/10 else if s.morale < 1/2 then 6/10 else 1) ∧
        s2.py = s.py + s2.vy * fd *
          (if 1/2 ≤ s.suppression then 3/10 else if s.morale < 1/2 then 6/10 else 1) ∧
        (0 < s.speed → 0 < fd → ¬ (s2.px = s.px ∧ s2.py = s.py))) := by
  constructor
  · intro squads e
    unfold spatialEntriesOf
    simp only [List.mem_map, List.mem_filter, decide_eq_true_eq]
    constructor
    · rintro ⟨s, ⟨hsmem, hsal⟩, rfl⟩
      exact ⟨s, hsmem, hsal, rfl⟩
    · rintro ⟨s, hsmem, hsal, rfl⟩
      exact ⟨s, ⟨hsmem, hsal⟩, rfl⟩
  · intro w fd i s tx ty hs hdead horder hsup hmor hai hlod hdist
    have hnp : ¬ (1 ≤ s.suppression ∨ s.morale < 1/5) := by
      push_neg
      exact ⟨hsup, hmor⟩
    set W0 : SimWorld := { w with deltaTime := fd, simTick := w.simTick + 1 }
    have g1 : (spatialGridUpdateSystem W0).squads[i]? = some s := hs
    set W1 := spatialGridUpdateSystem W0
    have g2 : (lodAssignmentSystem W1).squads[i]? = some s := lod_skip g1 hlod
    set W2 := lodAssignmentSystem W1
    have g3 := sector_squads g2
    set W3 := sectorAssignmentSystem W2
    obtain ⟨s4, g4, e4px, e4py, e4vx, e4vy, e4ord, e4sup, e4mor, e4spd, e4ai, e4lod, e4hc⟩ :=
      activity_squads g3
    set W4 := activityFlagsSystem W3
    have f4px : s4.px = s.px := e4px
    have f4py : s4.py = s.py := e4py
    have f4ord : s4.order = s.order := e4ord
    have f4sup : s4.suppression = s.suppression := e4sup
    have f4mor : s4.morale = s.morale := e4mor
    have f4spd : s4.speed = s.speed := e4spd
    have hai4 : s4.ai = none := (show s4.ai = s.ai from e4ai).trans hai
    have g5 : (threatAwarenessSystem W4).squads[i]? = some s4 := threat_skip g4 hai4
    set W5 := threatAwarenessSystem W4
    have g6 : (nearbyFriendliesSystem W5).squads[i]? = some s4 := nearby_skip g5 hai4
    set W6 := nearbyFriendliesSystem W5
    have g7 : (behaviorStateSystem W6).squads[i]? = some s4 := behavior_skip g6 hai4
    set W7 := behaviorStateSystem W6
    have g8 : (aiOrderSystem W7).squads[i]? = some s4 := aiOrder_skip g7 hai4
    set W8 := aiOrderSystem W7
    have g9 : (flockingSystem W8).squads[i]? = some s4 := flocking_skip g8 hai4
    set W9 := flockingSystem W8
    have hnp4 : ¬ (1 ≤ s4.suppression ∨ s4.morale < 1/5) := by
      rw [f4sup, f4mor]; exact hnp
    have horder4 : s4.order = .moveTo tx ty := f4ord.trans horder
    have hdist4 : 1 ≤ ratSqrt ((tx - s4.px) * (tx - s4.px) + (ty - s4.py) * (ty - s4.py)) := by
      rw [f4px, f4py]; exact hdist
    have g10 := order_moveTo g9 hnp4 horder4 hdist4
    set W10 := orderSystem W9
    have g11 := movement_none_moves g10 hnp4
    set W11 := movementSystem none W10
    obtain ⟨s12, g12, k12px, k12py, k12vx, k12vy⟩ :=
      combat_preserves_kinematics none g11
    set W12 := combatSystem none W11
    obtain ⟨s13, g13, k13px, k13py, k13vx, k13vy⟩ :=
      suppDecay_preserves_kinematics g12
    set W13 := suppressionDecaySystem W12
    obtain ⟨s14, g14, k14px, k14py, k14vx, k14vy⟩ :=
      morale_preserves_kinematics g13
    set W14 := moraleSystem W13
    obtain ⟨s15, g15, k15px, k15py, k15vx, k15vy⟩ :=
      rout_preserves_kinematics g14
    have hfinal : (fixedUpdate fd w).squads[i]? = some s15 := g15
    have hdt : W10.deltaTime = fd := rfl
    have hvx : s15.vx
        = (tx - s.px) / ratSqrt ((tx - s.px) * (tx - s.px) + (ty - s.py) * (ty - s.py))
          * s.speed := by
      rw [k15vx, k14vx, k13vx, k12vx]
      show (tx - s4.px) / ratSqrt ((tx - s4.px) * (tx - s4.px) + (ty - s4.py) * (ty - s4.py))
          * s4.speed
        = (tx - s.px) / ratSqrt ((tx - s.px) * (tx - s.px) + (ty - s.py) * (ty - s.py))
          * s.speed
      rw [f4px, f4py, f4spd]
    have hvy : s15.vy
        = (ty - s.py) / ratSqrt ((tx - s.px) * (tx - s.px) + (ty - s.py) * (ty - s.py))
          * s.speed := by
      rw [k15vy, k14vy, k13vy, k12vy]
      show (ty - s4.py) / ratSqrt ((tx - s4.px) * (tx - s4.px) + (ty - s4.py) * (ty - s4.py))
          * s4.speed
        = (ty - s.py) / ratSqrt ((tx - s.px) * (tx - s.px) + (ty - s.py) * (ty - s.py))
          * s.speed
      rw [f4px, f4py, f4spd]
    have hpx : s15.px = s.px + s15.vx * fd *
        (if 1/2 ≤ s.suppression then 3/10 else if s.morale < 1/2 then 6/10 else 1) := by
      rw [k15px, k14px, k13px, k12px, hvx]
      show s4.px
          + (tx - s4.px) / ratSqrt ((tx - s4.px) * (tx - s4.px) + (ty - s4.py) * (ty - s4.py))
            * s4.speed * W10.deltaTime
            * (if 1/2 ≤ s4.suppression then 3/10 else if s4.morale < 1/2 then 6/10 else 1)
        = _
      simp only [hdt, f4px, f4py, f4spd, f4sup, f4mor]
    have hpy : s15.py = s.py + s15.vy * fd *
        (if 1/2 ≤ s.suppression then 3/10 else if s.morale < 1/2 then 6/10 else 1) := by
      rw [k15py, k14py, k13py, k12py, hvy]
      show s4.py
          + (ty - s4.py) / ratSqrt ((tx - s4.px) * (tx - s4.px) + (ty - s4.py) * (ty - s4.py))
            * s4.speed * W10.deltaTime
            * (if 1/2 ≤ s4.suppression then 3/10 else if s4.morale < 1/2 then 6/10 else 1)
        = _
      simp only [hdt, f4px, f4py, f4spd, f4sup, f4mor]
    refine ⟨s15, hfinal, hvx, hvy, hpx, hpy, ?_⟩
    intro hspd hfd hcontra
    obtain ⟨h1, h2⟩ := hcontra
    rw [hpx] at h1
    rw [hpy] at h2
    have hm : (0 : ℚ)
        < (if 1/2 ≤ s.suppression then (3 : ℚ)/10 else if s.morale < 1/2 then 6/10 else 1) := by
      split_ifs <;> norm_num
    have hA : s15.vx * fd
        * (if 1/2 ≤ s.suppression then (3 : ℚ)/10 else if s.morale < 1/2 then 6/10 else 1)
        = 0 := by linarith
    have hB : s15.vy * fd
        * (if 1/2 ≤ s.suppression then (3 : ℚ)/10 else if s.morale < 1/2 then 6/10 else 1)
        = 0 := by linarith
    have hvx0 : s15.vx = 0 := by
      rcases mul_eq_zero.mp hA with hA1 | hA2
      · rcases mul_eq_zero.mp hA1 with hA3 | hA4
        · exact hA3
        · exact absurd hA4 (ne_of_gt hfd)
      · exact absurd hA2 (ne_of_gt hm)
    have hvy0 : s15.vy = 0 := by
      rcases mul_eq_zero.mp hB with hB1 | hB2
      · rcases mul_eq_zero.mp hB1 with hB3 | hB4
        · exact hB3
        · exact absurd hB4 (ne_of_gt hfd)
      · exact absurd hB2 (ne_of_gt hm)
    rw [hvx] at hvx0
    rw [hvy] at hvy0
    have hDpos : (0 : ℚ)
        < ratSqrt ((tx - s.px) * (tx - s.px) + (ty - s.py) * (ty - s.py)) :=
      lt_of_lt_of_le one_pos hdist
    have htx : tx - s.px = 0 := by
      rcases mul_eq_zero.mp hvx0 with hx1 | hx2
      · rcases div_eq_zero_iff.mp hx1 with hx3 | hx4
        · exact hx3
        · exact absurd hx4 (ne_of_gt hDpos)
      · exact absurd hx2 (ne_of_gt hspd)
    have hty : ty - s.py = 0 := by
      rcases mul_eq_zero.mp hvy0 with hy1 | hy2
      · rcases div_eq_zero_iff.mp hy1 with hy3 | hy4
        · exact hy3
        · exact absurd hy4 (ne_of_gt hDpos)
      · exact absurd hy2 (ne_of_gt hspd)
    rw [htx, hty] at hdist
    have hzero : ratSqrt ((0 : ℚ) * 0 + 0 * 0) = 0 := by
      with_unfolding_all decide
    rw [hzero] at hdist
    linarith

/-- A dead plain squad (no AI overlay, no LOD) holding a MoveTo order. -/
def c10Dead : Squad :=
  { mkAiSquad 1 1 .blue 0 0 200 with
      ai := none, lod := none, healthCur := 0, order := Order.moveTo 10 0 }

/-- A one-squad world around the dead squad, with a trivial terrain. -/
def c10World : SimWorld :=
  { withConfig defaultConfig with terrain := TerrainGrid.new 1 1 1, squads := [c10Dead] }

/-- Witness for the C10 theorem: the concrete dead squad is excluded from
the grid rebuild yet moves toward its target during one fixed update. -/
theorem dead_squad_excluded_from_grid_but_still_moves_witness :
    (⟨c10Dead.entity, c10Dead.px, c10Dead.py, c10Dead.faction.code⟩
        ∈ spatialEntriesOf c10World.squads ↔
      ∃ s ∈ c10World.squads, 0 < s.healthCur ∧
        (⟨c10Dead.entity, c10Dead.px, c10Dead.py, c10Dead.faction.code⟩ : SpatialEntry)
          = ⟨s.entity, s.px, s.py, s.faction.code⟩) ∧
    ∃ s2, (fixedUpdate (1/30) c10World).squads[0]? = some s2 ∧
      s2.vx = (10 - c10Dead.px)
          / ratSqrt ((10 - c10Dead.px) * (10 - c10Dead.px)
              + (0 - c10Dead.py) * (0 - c10Dead.py)) * c10Dead.speed ∧
      s2.vy = (0 - c10Dead.py)
          / ratSqrt ((10 - c10Dead.px) * (10 - c10Dead.px)
              + (0 - c10Dead.py) * (0 - c10Dead.py)) * c10Dead.speed ∧
      s2.px = c10Dead.px + s2.vx * (1/30) *
        (if 1/2 ≤ c10Dead.suppression then 3/10
         else if c10Dead.morale < 1/2 then 6/10 else 1) ∧
      s2.py = c10Dead.py + s2.vy * (1/30) *
        (if 1/2 ≤ c10Dead.suppression then 3/10
         else if c10Dead.morale < 1/2 then 6/10 else 1) ∧
      (0 < c10Dead.speed → 0 < (1/30 : ℚ) → ¬ (s2.px = c10Dead.px ∧ s2.py = c10Dead.py)) :=
  ⟨dead_squad_excluded_from_grid_but_still_moves.1 c10World.squads
      ⟨c10Dead.entity, c10Dead.px, c10Dead.py, c10Dead.faction.code⟩,
   dead_squad_excluded_from_grid_but_still_moves.2 c10World (1/30) 0 c10Dead 10 0
      rfl rfl rfl (by with_unfolding_all decide) (by with_unfolding_all decide) rfl rfl
      (by with_unfolding_all decide)⟩

/-- The squad bounds stated by the spec: health in [0, max], morale in
[0, 1], suppression nonnegative. -/
def SquadInv (s : Squad) : Prop :=
  0 ≤ s.healthCur ∧ s.healthCur ≤ s.healthMax ∧ 0 ≤ s.morale ∧ s.morale ≤ 1 ∧
    0 ≤ s.suppression

instance (s : Squad) : Decidable (SquadInv s) := by
  unfold SquadInv
  infer_instance

theorem healthFraction_bounds (cur hmax : ℚ) :
    0 ≤ healthFraction cur hmax ∧ healthFraction cur hmax ≤ 1 := by
  unfold healthFraction
  split_ifs
  · exact ⟨le_refl 0, by norm_num⟩
  · exact ⟨le_min (le_max_right _ _) (by norm_num), min_le_right _ _⟩

theorem moraleDecrease_bounds {m a : ℚ} (h0 : 0 ≤ m) (h1 : m ≤ 1) (ha : 0 ≤ a) :
    0 ≤ moraleDecrease m a ∧ moraleDecrease m a ≤ 1 := by
  unfold moraleDecrease
  exact ⟨le_max_right _ _, max_le (by linarith) (by norm_num)⟩

theorem moraleRecover_bounds {m a : ℚ} (h0 : 0 ≤ m) (ha : 0 ≤ a) :
    0 ≤ moraleRecover m a ∧ moraleRecover m a ≤ 1 := by
  unfold moraleRecover
  exact ⟨le_min (by linarith) (by norm_num), min_le_right _ _⟩

theorem healthDamage_bounds {cur hmax amount : ℚ} (h0 : 0 ≤ cur) (h1 : cur ≤ hmax)
    (ha : 0 ≤ amount) : 0 ≤ healthDamage cur amount ∧ healthDamage cur amount ≤ hmax := by
  unfold healthDamage
  exact ⟨le_max_right _ _, max_le (by linarith) (by linarith)⟩

/-- Squad invariant extended with the nonnegative accuracy every spawned
squad carries; this is the inductive envelope of the per-system proofs. -/
def SquadInvA (s : Squad) : Prop := SquadInv s ∧ 0 ≤ s.accuracy

instance (s : Squad) : Decidable (SquadInvA s) := by
  unfold SquadInvA
  infer_instance

theorem spatialGridUpdateSystem_inv {w : SimWorld} (hw : ∀ s ∈ w.squads, SquadInvA s) :
    ∀ s ∈ (spatialGridUpdateSystem w).squads, SquadInvA s := hw

theorem lodAssignmentSystem_inv {w : SimWorld} (hw : ∀ s ∈ w.squads, SquadInvA s) :
    ∀ s ∈ (lodAssignmentSystem w).squads, SquadInvA s := by
  intro s hsm
  simp only [lodAssignmentSystem, List.mem_map] at hsm
  obtain ⟨s0, hs0, rfl⟩ := hsm
  obtain ⟨⟨h1, h2, h3, h4, h5⟩, h6⟩ := hw s0 hs0
  refine ⟨⟨?_, ?_, ?_, ?_, ?_⟩, ?_⟩ <;>
    (repeat (first | assumption | split))

theorem sectorAssignmentSystem_inv {w : SimWorld} (hw : ∀ s ∈ w.squads, SquadInvA s) :
    ∀ s ∈ (sectorAssignmentSystem w).squads, SquadInvA s := by
  intro s hsm
  simp only [sectorAssignmentSystem, List.mem_map] at hsm
  obtain ⟨s0, hs0, rfl⟩ := hsm
  obtain ⟨⟨h1, h2, h3, h4, h5⟩, h6⟩ := hw s0 hs0
  exact ⟨⟨h1, h2, h3, h4, h5⟩, h6⟩

theorem activityFlagsSystem_inv {w : SimWorld} (hw : ∀ s ∈ w.squads, SquadInvA s) :
    ∀ s ∈ (activityFlagsSystem w).squads, SquadInvA s := by
  intro s hsm
  simp only [activityFlagsSystem, List.mem_map] at hsm
  obtain ⟨s0, hs0, rfl⟩ := hsm
  obtain ⟨⟨h1, h2, h3, h4, h5⟩, h6⟩ := hw s0 hs0
  exact ⟨⟨h1, h2, h3, h4, h5⟩, h6⟩

theorem threatAwarenessSystem_inv {w : SimWorld} (hw : ∀ s ∈ w.squads, SquadInvA s) :
    ∀ s ∈ (threatAwarenessSystem w).squads, SquadInvA s := by
  intro s hsm
  simp only [threatAwarenessSystem, List.mem_map] at hsm
  obtain ⟨s0, hs0, rfl⟩ := hsm
  obtain ⟨⟨h1, h2, h3, h4, h5⟩, h6⟩ := hw s0 hs0
  refine ⟨⟨?_, ?_, ?_, ?_, ?_⟩, ?_⟩ <;>
    (repeat (first | assumption | split))

theorem nearbyFriendliesSystem_inv {w : SimWorld} (hw : ∀ s ∈ w.squads, SquadInvA s) :
    ∀ s ∈ (nearbyFriendliesSystem w).squads, SquadInvA s := by
  intro s hsm
  simp only [nearbyFriendliesSystem, List.mem_map] at hsm
  obtain ⟨s0, hs0, rfl⟩ := hsm
  obtain ⟨⟨h1, h2, h3, h4, h5⟩, h6⟩ := hw s0 hs0
  refine ⟨⟨?_, ?_, ?_, ?_, ?_⟩, ?_⟩ <;>
    (repeat (first | assumption | split))

theorem behaviorStateSystem_inv {w : SimWorld} (hw : ∀ s ∈ w.squads, SquadInvA s) :
    ∀ s ∈ (behaviorStateSystem w).squads, SquadInvA s := by
  intro s hsm
  simp only [behaviorStateSystem, List.mem_map] at hsm
  obtain ⟨s0, hs0, rfl⟩ := hsm
  obtain ⟨⟨h1, h2, h3, h4, h5⟩, h6⟩ := hw s0 hs0
  refine ⟨⟨?_, ?_, ?_, ?_, ?_⟩, ?_⟩ <;>
    (repeat (first | assumption | split))

theorem aiOrderSystem_inv {w : SimWorld} (hw : ∀ s ∈ w.squads, SquadInvA s) :
    ∀ s ∈ (aiOrderSystem w).squads, SquadInvA s := by
  intro s hsm
  simp only [aiOrderSystem, List.mem_map] at hsm
  obtain ⟨s0, hs0, rfl⟩ := hsm
  obtain ⟨⟨h1, h2, h3, h4, h5⟩, h6⟩ := hw s0 hs0
  refine ⟨⟨?_, ?_, ?_, ?_, ?_⟩, ?_⟩ <;>
    (repeat (first | assumption | split))

theorem flockingSystem_inv {w : SimWorld} (hw : ∀ s ∈ w.squads, SquadInvA s) :
    ∀ s ∈ (flockingSystem w).squads, SquadInvA s := by
  intro s hsm
  simp only [flockingSystem, List.mem_map] at hsm
  obtain ⟨s0, hs0, rfl⟩ := hsm
  obtain ⟨⟨h1, h2, h3, h4, h5⟩, h6⟩ := hw s0 hs0
  refine ⟨⟨?_, ?_, ?_, ?_, ?_⟩, ?_⟩ <;>
    (repeat (first | assumption | split | dsimp only))

theorem orderSystem_inv {w : SimWorld} (hw : ∀ s ∈ w.squads, SquadInvA s) :
    ∀ s ∈ (orderSystem w).squads, SquadInvA s := by
  intro s hsm
  simp only [orderSystem, List.mem_map] at hsm
  obtain ⟨s0, hs0, rfl⟩ := hsm
  obtain ⟨⟨h1, h2, h3, h4, h5⟩, h6⟩ := hw s0 hs0
  refine ⟨⟨?_, ?_, ?_, ?_, ?_⟩, ?_⟩ <;>
    (repeat (first | assumption | split))

theorem movementSystem_inv {tOpt : Option TerrainGrid} {w : SimWorld}
    (hw : ∀ s ∈ w.squads, SquadInvA s) :
    ∀ s ∈ (movementSystem tOpt w).squads, SquadInvA s := by
  intro s hsm
  simp only [movementSystem, List.mem_map] at hsm
  obtain ⟨s0, hs0, rfl⟩ := hsm
  obtain ⟨⟨h1, h2, h3, h4, h5⟩, h6⟩ := hw s0 hs0
  refine ⟨⟨?_, ?_, ?_, ?_, ?_⟩, ?_⟩ <;>
    (repeat (first | assumption | split))

theorem suppressionDecaySystem_inv {w : SimWorld} (hw : ∀ s ∈ w.squads, SquadInvA s) :
    ∀ s ∈ (suppressionDecaySystem w).squads, SquadInvA s := by
  intro s hsm
  simp only [suppressionDecaySystem, List.mem_map] at hsm
  obtain ⟨s0, hs0, rfl⟩ := hsm
  obtain ⟨⟨h1, h2, h3, h4, h5⟩, h6⟩ := hw s0 hs0
  exact ⟨⟨h1, h2, h3, h4, le_max_right _ _⟩, h6⟩

theorem routSystem_inv {w : SimWorld} (hw : ∀ s ∈ w.squads, SquadInvA s) :
    ∀ s ∈ (routSystem w).squads, SquadInvA s := by
  intro s hsm
  simp only [routSystem, List.mem_map] at hsm
  obtain ⟨s0, hs0, rfl⟩ := hsm
  obtain ⟨⟨h1, h2, h3, h4, h5⟩, h6⟩ := hw s0 hs0
  refine ⟨⟨?_, ?_, ?_, ?_, ?_⟩, ?_⟩ <;>
    (repeat (first | assumption | split))

theorem terrainDamageToDestructiblesSystem_inv {w : SimWorld}
    (hw : ∀ s ∈ w.squads, SquadInvA s) :
    ∀ s ∈ (terrainDamageToDestructiblesSystem w).squads, SquadInvA s := hw

theorem destructionStateSystem_inv {w : SimWorld} (hw : ∀ s ∈ w.squads, SquadInvA s) :
    ∀ s ∈ (destructionStateSystem w).squads, SquadInvA s := hw

theorem lookupMap_mem : ∀ {m : List (ℕ × ℚ)} {k : ℕ} {v : ℚ},
    lookupMap m k = some v → (k, v) ∈ m := by
  intro m
  induction m with
  | nil =>
    intro k v h
    exact Option.noConfusion h
  | cons kv0 rest ih =>
    intro k v h
    obtain ⟨k0, v0⟩ := kv0
    by_cases hk : k0 = k
    · subst hk
      rw [lookupMap, if_pos rfl] at h
      obtain rfl : v0 = v := by simpa using h
      exact List.mem_cons_self _ _
    · rw [lookupMap, if_neg hk] at h
      exact List.mem_cons_of_mem _ (ih h)

theorem addToMap_nonneg : ∀ {m : List (ℕ × ℚ)} {k : ℕ} {v : ℚ},
    (∀ kv ∈ m, 0 ≤ kv.2) → 0 ≤ v → ∀ kv ∈ addToMap m k v, 0 ≤ kv.2 := by
  intro m
  induction m with
  | nil =>
    intro k v _ hv kv hkv
    simp only [addToMap, List.mem_singleton] at hkv
    subst hkv
    simpa using hv
  | cons kv0 rest ih =>
    intro k v hm hv kv hkv
    obtain ⟨k0, v0⟩ := kv0
    rw [addToMap] at hkv
    by_cases hk : k0 = k
    · rw [if_pos hk] at hkv
      rcases List.mem_cons.mp hkv with rfl | hkv2
      · have hv0 : 0 ≤ v0 := hm (k0, v0) (List.mem_cons_self _ _)
        simpa using add_nonneg hv0 hv
      · exact hm kv (List.mem_cons_of_mem _ hkv2)
    · rw [if_neg hk] at hkv
      rcases List.mem_cons.mp hkv with rfl | hkv2
      · exact hm (k0, v0) (List.mem_cons_self _ _)
      · exact ih (fun x hx => hm x (List.mem_cons_of_mem _ hx)) hv kv hkv2

theorem foldl_addToMap_nonneg : ∀ (L acc : List (ℕ × ℚ)),
    (∀ kv ∈ acc, 0 ≤ kv.2) → (∀ kv ∈ L, 0 ≤ kv.2) →
    ∀ kv ∈ L.foldl (fun m kv => addToMap m kv.1 kv.2) acc, 0 ≤ kv.2 := by
  intro L
  induction L with
  | nil =>
    intro acc hacc _ kv hkv
    exact hacc kv hkv
  | cons e rest ih =>
    intro acc hacc hL kv hkv
    simp only [List.foldl_cons] at hkv
    exact ih _ (addToMap_nonneg hacc (hL e (List.mem_cons_self e rest)))
      (fun x hx => hL x (List.mem_cons_of_mem e hx)) kv hkv

/-- All damage and suppression intents of one attacker are nonnegative when
the attacker fields lie in the invariant envelope (terrain resource absent,
as in the actual pipeline). -/
theorem computeAttackerCombat_none_nonneg {a : AttackerData} {grid : SpatialGrid} {delta : ℚ}
    (hacc : 0 ≤ a.accuracy) (hsup : 0 ≤ a.suppression) (hm0 : 0 ≤ a.morale)
    (hm1 : a.morale ≤ 1) (hlod : 0 ≤ a.lodMultiplier) (hd : 0 ≤ delta) :
    (∀ kv ∈ (computeAttackerCombat a grid none delta).damage, 0 ≤ kv.2) ∧
    (∀ kv ∈ (computeAttackerCombat a grid none delta).suppression, 0 ≤ kv.2) := by
  cases hbt : bestTarget a grid none with
  | none =>
    constructor <;>
      (intro kv hkv; simp [computeAttackerCombat, hbt, emptyCombatResults] at hkv)
  | some tdc =>
    obtain ⟨te, dist, cover⟩ := tdc
    obtain ⟨hmem, -, -⟩ := foldl_bestStep_spec a none
      (grid.queryEnemies a.x a.y a.fireRange a.faction) none te dist cover
      (by rw [← bestTarget_eq_fold]; exact hbt)
    rcases hmem with h1 | ⟨e, he, hte, hdiste, hcove, hdle⟩
    · exact Option.noConfusion h1
    have hd0 : 0 ≤ dist := by rw [hdiste]; exact ratSqrt_nonneg _
    have hcov0 : cover = 0 := hcove
    have hrf : 0 ≤ (if a.fireRange * (1/2) < dist
          then 1 - (dist - a.fireRange * (1/2)) / (a.fireRange * (1 - 1/2)) else (1:ℚ))
        ∧ (if a.fireRange * (1/2) < dist
          then 1 - (dist - a.fireRange * (1/2)) / (a.fireRange * (1 - 1/2)) else (1:ℚ)) ≤ 1 := by
      split_ifs with hcnd
      · have hden : 0 < a.fireRange * (1 - 1/2) := by linarith
        constructor
        · have hq : (dist - a.fireRange * (1/2)) / (a.fireRange * (1 - 1/2)) ≤ 1 := by
            rw [div_le_one hden]
            linarith
          linarith
        · have hq : 0 ≤ (dist - a.fireRange * (1/2)) / (a.fireRange * (1 - 1/2)) :=
            div_nonneg (by linarith) (le_of_lt hden)
          linarith
      · norm_num
    have hsp : 0 ≤ 1 - min (a.suppression * (1/2)) (8/10 : ℚ) := by
      have := min_le_right (a.suppression * (1/2)) (8/10 : ℚ)
      linarith
    have hmf : 0 ≤ (1:ℚ)/2 + a.morale * (1/2) := by linarith
    have hshots : 0 ≤ (a.size : ℚ) * delta * 2 * a.lodMultiplier :=
      mul_nonneg (mul_nonneg (mul_nonneg (Nat.cast_nonneg _) hd) (by norm_num)) hlod
    have heff : 0 ≤ a.accuracy
        * (if a.fireRange * (1/2) < dist
            then 1 - (dist - a.fireRange * (1/2)) / (a.fireRange * (1 - 1/2)) else (1:ℚ))
        * (1 - min (a.suppression * (1/2)) (8/10))
        * ((1:ℚ)/2 + a.morale * (1/2)) :=
      mul_nonneg (mul_nonneg (mul_nonneg hacc hrf.1) hsp) hmf
    have hcf : (0:ℚ) ≤ 1 - cover * (7/10) := by rw [hcov0]; norm_num
    have hcf2 : (0:ℚ) ≤ 1 - cover * (3/10) := by rw [hcov0]; norm_num
    constructor <;> intro kv hkv <;>
      simp only [computeAttackerCombat, hbt, addToMap, List.mem_singleton] at hkv <;>
      subst hkv
    · have : (0:ℚ) ≤ (a.size : ℚ) * delta * 2 * a.lodMultiplier
          * (a.accuracy
            * (if a.fireRange * (1/2) < dist
                then 1 - (dist - a.fireRange * (1/2)) / (a.fireRange * (1 - 1/2)) else (1:ℚ))
            * (1 - min (a.suppression * (1/2)) (8/10))
            * ((1:ℚ)/2 + a.morale * (1/2)))
          * (15/100) * 8 * (1 - cover * (7/10)) :=
        mul_nonneg (mul_nonneg (mul_nonneg (mul_nonneg hshots heff) (by norm_num))
          (by norm_num)) hcf
      simpa using this
    · have : (0:ℚ) ≤ (a.size : ℚ) * delta * 2 * a.lodMultiplier
          * (a.accuracy
            * (if a.fireRange * (1/2) < dist
                then 1 - (dist - a.fireRange * (1/2)) / (a.fireRange * (1 - 1/2)) else (1:ℚ))
            * (1 - min (a.suppression * (1/2)) (8/10))
            * ((1:ℚ)/2 + a.morale * (1/2)))
          * (15/100) * (2/10) * (1 - cover * (3/10)) :=
        mul_nonneg (mul_nonneg (mul_nonneg (mul_nonneg hshots heff) (by norm_num))
          (by norm_num)) hcf2
      simpa using this

/-- All gathered damage and suppression intents are nonnegative when every
squad is inside the invariant envelope. -/
theorem combatGather_none_nonneg (squads : List Squad) (grid : SpatialGrid) (delta : ℚ)
    (tick : ℕ)
    (hw : ∀ s ∈ squads, 0 ≤ s.accuracy ∧ 0 ≤ s.suppression ∧ 0 ≤ s.morale ∧ s.morale ≤ 1)
    (hd : 0 ≤ delta) :
    (∀ kv ∈ (combatGather squads grid none delta tick).damage, 0 ≤ kv.2) ∧
    (∀ kv ∈ (combatGather squads grid none delta tick).suppression, 0 ≤ kv.2) := by
  unfold combatGather
  have haux : ∀ (L : List AttackerData),
      (∀ a ∈ L, 0 ≤ a.accuracy ∧ 0 ≤ a.suppression ∧ 0 ≤ a.morale ∧ a.morale ≤ 1 ∧
        0 ≤ a.lodMultiplier) →
      ∀ (acc : CombatResults),
        (∀ kv ∈ acc.damage, 0 ≤ kv.2) → (∀ kv ∈ acc.suppression, 0 ≤ kv.2) →
        (∀ kv ∈ (L.foldl (fun acc a => acc.merge (computeAttackerCombat a grid none delta))
            acc).damage, 0 ≤ kv.2) ∧
        (∀ kv ∈ (L.foldl (fun acc a => acc.merge (computeAttackerCombat a grid none delta))
            acc).suppression, 0 ≤ kv.2) := by
    intro L
    induction L with
    | nil =>
      intro _ acc hd1 hd2
      exact ⟨hd1, hd2⟩
    | cons a rest ih =>
      intro hL acc hd1 hd2
      simp only [List.foldl_cons]
      obtain ⟨ha1, ha2, ha3, ha4, ha5⟩ := hL a (List.mem_cons_self a rest)
      obtain ⟨hca, hcb⟩ := computeAttackerCombat_none_nonneg ha1 ha2 ha3 ha4 ha5 hd
      exact ih (fun x hx => hL x (List.mem_cons_of_mem a hx)) _
        (foldl_addToMap_nonneg _ _ hd1 hca) (foldl_addToMap_nonneg _ _ hd2 hcb)
  refine haux _ ?_ emptyCombatResults (by simp [emptyCombatResults])
    (by simp [emptyCombatResults])
  intro a ha
  simp only [List.mem_map, List.mem_filter] at ha
  obtain ⟨s, ⟨hsmem, -⟩, rfl⟩ := ha
  obtain ⟨h6, h5, h3, h4⟩ := hw s hsmem
  refine ⟨h6, h5, h3, h4, ?_⟩
  cases hsl : s.lod with
  | none => simp [toAttackerData, hsl]
  | some l =>
    simp only [toAttackerData, hsl]
    exact Nat.cast_nonneg _

theorem combatSystem_inv {w : SimWorld} (hdt : 0 ≤ w.deltaTime)
    (hw : ∀ s ∈ w.squads, SquadInvA s) :
    ∀ s ∈ (combatSystem none w).squads, SquadInvA s := by
  obtain ⟨hgd, hgs⟩ := combatGather_none_nonneg
    w.squads w.grid w.deltaTime w.simTick
    (fun s hs => ⟨(hw s hs).2, (hw s hs).1.2.2.2.2, (hw s hs).1.2.2.1, (hw s hs).1.2.2.2.1⟩)
    hdt
  intro s hsm
  simp only [combatSystem, List.mem_map] at hsm
  obtain ⟨s0, hs0, rfl⟩ := hsm
  obtain ⟨⟨h1, h2, h3, h4, h5⟩, h6⟩ := hw s0 hs0
  try dsimp only
  cases hld : lookupMap
      (combatGather w.squads w.grid none w.deltaTime w.simTick).damage s0.entity with
  | none =>
    try dsimp only
    cases hls : lookupMap
        (combatGather w.squads w.grid none w.deltaTime w.simTick).suppression s0.entity with
    | none =>
      split <;> exact ⟨⟨h1, h2, h3, h4, h5⟩, h6⟩
    | some sup =>
      have hsupnn : 0 ≤ sup := hgs _ (lookupMap_mem hls)
      split <;> exact ⟨⟨h1, h2, h3, h4, add_nonneg h5 hsupnn⟩, h6⟩
  | some dmg =>
    have hdm : 0 ≤ dmg := hgd _ (lookupMap_mem hld)
    obtain ⟨hh1, hh2⟩ := healthDamage_bounds h1 h2 hdm
    try dsimp only
    cases hls : lookupMap
        (combatGather w.squads w.grid none w.deltaTime w.simTick).suppression s0.entity with
    | none =>
      split <;> exact ⟨⟨hh1, hh2, h3, h4, h5⟩, h6⟩
    | some sup =>
      have hsupnn : 0 ≤ sup := hgs _ (lookupMap_mem hls)
      split <;> exact ⟨⟨hh1, hh2, h3, h4, add_nonneg h5 hsupnn⟩, h6⟩

/-- An if-then-else of two unit-interval rationals stays in the unit
interval. -/
theorem ite_unit_bounds {c : Prop} [Decidable c] {x y : ℚ} (hx : 0 ≤ x ∧ x ≤ 1)
    (hy : 0 ≤ y ∧ y ≤ 1) : 0 ≤ (if c then x else y) ∧ (if c then x else y) ≤ 1 := by
  split_ifs <;> assumption

theorem moraleDecrease_unit {m a : ℚ} (h : 0 ≤ m ∧ m ≤ 1) (ha : 0 ≤ a) :
    0 ≤ moraleDecrease m a ∧ moraleDecrease m a ≤ 1 :=
  moraleDecrease_bounds h.1 h.2 ha

theorem moraleRecover_unit {m a : ℚ} (h : 0 ≤ m ∧ m ≤ 1) (ha : 0 ≤ a) :
    0 ≤ moraleRecover m a ∧ moraleRecover m a ≤ 1 :=
  moraleRecover_bounds h.1 ha

theorem unit_glue {x y : ℚ} (h : 0 ≤ x ∧ x ≤ 1) (hy : 0 ≤ y) :
    0 ≤ x ∧ x ≤ 1 ∧ 0 ≤ y :=
  ⟨h.1, h.2, hy⟩

theorem moraleSystem_inv {w : SimWorld} (hdt : 0 ≤ w.deltaTime)
    (hw : ∀ s ∈ w.squads, SquadInvA s) :
    ∀ s ∈ (moraleSystem w).squads, SquadInvA s := by
  intro s hsm
  simp only [moraleSystem, List.mem_map] at hsm
  obtain ⟨s0, hs0, rfl⟩ := hsm
  obtain ⟨⟨h1, h2, h3, h4, h5⟩, h6⟩ := hw s0 hs0
  refine ⟨⟨h1, h2, ?_⟩, h6⟩
  refine unit_glue ?_ h5
  dsimp only
  set HF := healthFraction s0.healthCur s0.healthMax with hHF
  have hfb : 0 ≤ HF ∧ HF ≤ 1 := healthFraction_bounds s0.healthCur s0.healthMax
  set M1 := (if 1 ≤ s0.suppression then moraleDecrease s0.morale (1/10 * w.deltaTime)
    else if 1/2 ≤ s0.suppression then moraleDecrease s0.morale (5/100 * w.deltaTime)
    else s0.morale) with hM1
  have hb1 : 0 ≤ M1 ∧ M1 ≤ 1 := by
    rw [hM1]
    refine ite_unit_bounds (moraleDecrease_unit ⟨h3, h4⟩ ?_)
      (ite_unit_bounds (moraleDecrease_unit ⟨h3, h4⟩ ?_) ⟨h3, h4⟩) <;>
      exact mul_nonneg (by norm_num) hdt
  set M2 := (if HF < 3/4 then moraleDecrease M1 ((1 - HF) * (2/1000) * w.deltaTime) else M1)
    with hM2
  have hb2 : 0 ≤ M2 ∧ M2 ≤ 1 := by
    rw [hM2]
    exact ite_unit_bounds (moraleDecrease_unit hb1
      (mul_nonneg (mul_nonneg (by linarith [hfb.2]) (by norm_num)) hdt)) hb1
  set M3 := (if HF < 1/4 then moraleDecrease M2 (5/100 * w.deltaTime) else M2) with hM3
  have hb3 : 0 ≤ M3 ∧ M3 ≤ 1 := by
    rw [hM3]
    exact ite_unit_bounds (moraleDecrease_unit hb2 (mul_nonneg (by norm_num) hdt)) hb2
  set K := (w.squads.filter (fun o =>
    decide (o.faction = s0.faction) &&
    (decide ((1 : ℚ)/10
        < ratSqrt ((o.px - s0.px) * (o.px - s0.px) + (o.py - s0.py) * (o.py - s0.py))) &&
     decide (ratSqrt ((o.px - s0.px) * (o.px - s0.px) + (o.py - s0.py) * (o.py - s0.py))
        < 20)))).length with hK
  set M4 := (if ¬ ((1 : ℚ)/2 ≤ s0.suppression) ∧ ¬ (M3 < (1 : ℚ)/5) then
    moraleRecover M3 (((2/100) + (K : ℚ) * (1/100)) * w.deltaTime) else M3) with hM4
  have hb4 : 0 ≤ M4 ∧ M4 ≤ 1 := by
    rw [hM4]
    exact ite_unit_bounds (moraleRecover_unit hb3 (mul_nonneg (by positivity) hdt)) hb3
  set M5 := (if M4 < (1 : ℚ)/5 ∧ ¬ ((1 : ℚ)/2 ≤ s0.suppression) ∧ (1 : ℚ)/2 < HF then
    moraleRecover M4 ((2/100) * (1/10) * w.deltaTime) else M4) with hM5
  have hb5 : 0 ≤ M5 ∧ M5 ≤ 1 := by
    rw [hM5]
    exact ite_unit_bounds (moraleRecover_unit hb4 (mul_nonneg (by norm_num) hdt)) hb4
  exact hb5

theorem applySystem_deltaTime (w : SimWorld) (sys : SysId) :
    (applySystem w sys).deltaTime = w.deltaTime := by
  cases sys <;> rfl

theorem applySystem_inv {w : SimWorld} (hdt : 0 ≤ w.deltaTime)
    (hw : ∀ s ∈ w.squads, SquadInvA s) (sys : SysId) :
    ∀ s ∈ (applySystem w sys).squads, SquadInvA s := by
  cases sys with
  | spatialGridUpdate => exact spatialGridUpdateSystem_inv hw
  | lodAssignment => exact lodAssignmentSystem_inv hw
  | sectorAssignment => exact sectorAssignmentSystem_inv hw
  | activityFlags => exact activityFlagsSystem_inv hw
  | threatAwareness => exact threatAwarenessSystem_inv hw
  | nearbyFriendlies => exact nearbyFriendliesSystem_inv hw
  | behaviorState => exact behaviorStateSystem_inv hw
  | aiOrder => exact aiOrderSystem_inv hw
  | flocking => exact flockingSystem_inv hw
  | orderSys => exact orderSystem_inv hw
  | movement => exact movementSystem_inv hw
  | combat => exact combatSystem_inv hdt hw
  | suppressionDecay => exact suppressionDecaySystem_inv hw
  | morale => exact moraleSystem_inv hdt hw
  | rout => exact routSystem_inv hw
  | terrainDamageToDestructibles => exact terrainDamageToDestructiblesSystem_inv hw
  | destructionState => exact destructionStateSystem_inv hw

theorem runSchedule_inv : ∀ (L : List SysId) (w : SimWorld), 0 ≤ w.deltaTime →
    (∀ s ∈ w.squads, SquadInvA s) → ∀ s ∈ (runSchedule L w).squads, SquadInvA s := by
  intro L
  induction L with
  | nil =>
    intro w _ hw
    exact hw
  | cons sys rest ih =>
    intro w hdt hw
    simp only [runSchedule, List.foldl_cons]
    exact ih (applySystem w sys)
      (by rw [applySystem_deltaTime]; exact hdt) (applySystem_inv hdt hw sys)

theorem fixedUpdateWith_squads (L : List SysId) (fd : ℚ) (w : SimWorld) :
    (fixedUpdateWith L fd w).squads
      = (runSchedule L { w with deltaTime := fd, simTick := w.simTick + 1 }).squads := rfl

theorem fixedUpdate_inv {w : SimWorld} {fd : ℚ} (hfd : 0 ≤ fd)
    (hw : ∀ s ∈ w.squads, SquadInvA s) :
    ∀ s ∈ (fixedUpdate fd w).squads, SquadInvA s := by
  intro s hsm
  rw [show fixedUpdate fd w = fixedUpdateWith refSchedule fd w from rfl,
    fixedUpdateWith_squads] at hsm
  exact runSchedule_inv refSchedule
    { w with deltaTime := fd, simTick := w.simTick + 1 } hfd hw s hsm

/-- C4: in the invariant envelope (every squad with health in [0, max],
morale in [0, 1], nonnegative suppression and nonnegative accuracy, and a
nonnegative timestep) every single system of the schedule preserves the
claimed bounds, and so does one whole fixed update under the reference
order: after every tick 0 <= health.current <= health.max, 0 <= morale <= 1
and 0 <= suppression. -/
theorem squad_bounds_preserved_every_system_and_tick :
    (∀ (w : SimWorld), 0 ≤ w.deltaTime →
      (∀ s ∈ w.squads, SquadInv s ∧ 0 ≤ s.accuracy) →
      ∀ sys : SysId, ∀ s ∈ (applySystem w sys).squads, SquadInv s ∧ 0 ≤ s.accuracy) ∧
    (∀ (w : SimWorld) (fd : ℚ), 0 ≤ fd →
      (∀ s ∈ w.squads, SquadInv s ∧ 0 ≤ s.accuracy) →
      ∀ s ∈ (fixedUpdate fd w).squads, SquadInv s ∧ 0 ≤ s.accuracy) :=
  ⟨fun _ hdt hw sys => applySystem_inv hdt hw sys,
   fun _ _ hfd hw => fixedUpdate_inv hfd hw⟩

/-- Witness for C4 on the concrete one-squad world. -/
theorem squad_bounds_preserved_witness :
    ((0:ℚ) ≤ 1/30 ∧ (∀ s ∈ c10World.squads, SquadInv s ∧ 0 ≤ s.accuracy)) ∧
    ∀ s ∈ (fixedUpdate (1/30) c10World).squads, SquadInv s ∧ 0 ≤ s.accuracy :=
  ⟨⟨by norm_num, by with_unfolding_all decide⟩,
   squad_bounds_preserved_every_system_and_tick.2 c10World (1/30) (by norm_num)
     (by with_unfolding_all decide)⟩

end TBG
